import Mathlib

set_option linter.unusedVariables false

/-!
Verification of the roll-forward fsync recovery engine (fs/f3fs/recovery.c).

This file is a shallow embedding of recovery.c.  Pure on-disk decoding is
modelled by record fields, page-cache / NAT / quota / segment collaborators by
environment records of fallible functions returning Except Int (error codes are
negative, mirroring the kernel convention), and the walk loops of the source by
fuel-indexed structural recursion whose fuel is shown sufficient wherever the
source guarantees termination.  Block addresses are natural numbers below 2^32.
-/

/-- Sentinel block address: unallocated slot (NULL_ADDR in the source). -/
def NULL_ADDR : Nat := 0

/-- Sentinel block address: reserved but unwritten slot (NEW_ADDR, u32 value -1). -/
def NEW_ADDR : Nat := 2 ^ 32 - 1

def ENOENT : Int := 2
def ENOMEM : Int := 12
def EEXIST : Int := 17
def EINVAL : Int := 22
def ENAMETOOLONG : Int := 36
def EFSCORRUPTED : Int := 117
def EDQUOT : Int := 122

def RECOVERY_MAX_RA_BLOCKS : Nat := 256

def RECOVERY_MIN_RA_BLOCKS : Nat := 1

def F3FS_NAME_LEN : Nat := 255

/-- Bytes per block (1 << PAGE_SHIFT with PAGE_SHIFT = 12). -/
def PAGE_SIZE_BYTES : Nat := 4096

/-- __is_valid_data_blkaddr: every address other than NULL_ADDR / NEW_ADDR. -/
def __is_valid_data_blkaddr (a : Nat) : Bool := a != NULL_ADDR && a != NEW_ADDR

/-- On-disk raw inode body (struct f3fs_inode), little-endian fields decoded. -/
structure RawInode where
  mode : Nat
  uid : Nat
  gid : Nat
  size : Nat
  atime : Nat
  ctime : Nat
  mtime : Nat
  atimeNsec : Nat
  ctimeNsec : Nat
  mtimeNsec : Nat
  advise : Nat
  flags : Nat
  gcFailures : Nat
  projid : Nat
  namelen : Nat
  pino : Nat
  inlinePin : Bool
  inlineDataExist : Bool
  inlineExtraAttr : Bool
  /-- F3FS_FITS_IN_INODE(raw, extra_isize, i_projid). -/
  fitsProjid : Bool
  deriving DecidableEq, Repr

/-- In-memory VFS inode, restricted to the fields recovery touches. -/
structure Inode where
  ino : Nat
  mode : Nat
  uid : Nat
  gid : Nat
  size : Nat
  atime : Nat
  ctime : Nat
  mtime : Nat
  atimeNsec : Nat
  ctimeNsec : Nat
  mtimeNsec : Nat
  advise : Nat
  flags : Nat
  gcFailures : Nat
  projid : Nat
  pinFile : Bool
  dataExist : Bool
  deriving DecidableEq, Repr

/-- A node page as recovery reads it: footer fields plus the decoded payload.
ino, ofs, nextBlkaddr come from the footer; isInode is IS_INODE, fsyncMark is
is_fsync_dnode, dentMark is is_dent_dnode, recoverable is is_recoverable_dnode
(checkpoint-version match); dataAddrs gives data_blkaddr(inode, page, i) and raw
the inode body for inode pages. -/
structure NodePage where
  ino : Nat
  ofs : Nat
  nextBlkaddr : Nat
  isInode : Bool
  fsyncMark : Bool
  dentMark : Bool
  recoverable : Bool
  raw : RawInode
  dataAddrs : Nat → Nat

/-- Entry of the fsync-inode table (struct fsync_inode_entry).  The inode
handle is identified by its ino; blkaddr and lastDentry start zeroed because
the slab allocation uses GFP_F3FS_ZERO. -/
structure FsyncEntry where
  ino : Nat
  blkaddr : Nat
  lastDentry : Nat
  deriving DecidableEq, Repr

/-- External collaborators used by discovery and the fsync-inode table:
META_POR address validation, the buffered page cache, the inode cache and the
quota subsystem.  All errors are negative integers. -/
structure FsEnv where
  validPOR : Nat → Bool
  readPage : Nat → Except Int NodePage
  igetRetry : Nat → Except Int Unit
  dquotInit : Nat → Except Int Unit
  dquotAllocInode : Nat → Except Int Unit
  recoverInodePageRes : Nat → Except Int Unit
  freeBlocks : Nat
  blocksPerSeg : Nat
  startBlkaddr : Nat

/-- get_fsync_inode: linear scan of the table for an ino. -/
def get_fsync_inode (head : List FsyncEntry) (ino : Nat) : Option FsyncEntry :=
  head.find? (fun e => e.ino == ino)

/-- Result of add_fsync_inode, with the handle accounting made explicit:
igets counts successful f3fs_iget_retry acquisitions, iputs the releases. -/
structure AddOut where
  res : Except Int FsyncEntry
  list : List FsyncEntry
  igets : Nat
  iputs : Nat

/-- add_fsync_inode: acquire the inode handle, run quota init (and, for
quota_inode, the quota inode charge); only then allocate the entry and append
it to the table.  On any failure after the handle was acquired the handle is
released and the table is left untouched. -/
def add_fsync_inode (env : FsEnv) (head : List FsyncEntry) (ino : Nat)
    (quota_inode : Bool) : AddOut :=
  match env.igetRetry ino with
  | .error e => { res := .error e, list := head, igets := 0, iputs := 0 }
  | .ok _ =>
    match env.dquotInit ino with
    | .error e => { res := .error e, list := head, igets := 1, iputs := 1 }
    | .ok _ =>
      let entry : FsyncEntry := { ino := ino, blkaddr := 0, lastDentry := 0 }
      if quota_inode then
        match env.dquotAllocInode ino with
        | .error e => { res := .error e, list := head, igets := 1, iputs := 1 }
        | .ok _ =>
          { res := .ok entry, list := head ++ [entry], igets := 1, iputs := 0 }
      else
        { res := .ok entry, list := head ++ [entry], igets := 1, iputs := 0 }

/-- Claim C9: add_fsync_inode is atomic on failure.  If quota initialization or
the quota inode charge fails after the inode handle was acquired, the function
releases the handle and returns the error with the fsync-inode table unchanged;
the entry is appended only when every fallible step has succeeded (and then no
handle is released). -/
theorem claim_C9 (env : FsEnv) (head : List FsyncEntry) (ino : Nat) (qi : Bool) :
    (∀ e, env.igetRetry ino = .ok () → env.dquotInit ino = .error e →
      (add_fsync_inode env head ino qi).res = .error e ∧
      (add_fsync_inode env head ino qi).list = head ∧
      (add_fsync_inode env head ino qi).iputs = 1) ∧
    (∀ e, env.igetRetry ino = .ok () → env.dquotInit ino = .ok () → qi = true →
      env.dquotAllocInode ino = .error e →
      (add_fsync_inode env head ino qi).res = .error e ∧
      (add_fsync_inode env head ino qi).list = head ∧
      (add_fsync_inode env head ino qi).iputs = 1) ∧
    (∀ en, (add_fsync_inode env head ino qi).res = .ok en →
      (add_fsync_inode env head ino qi).list = head ++ [en] ∧
      (add_fsync_inode env head ino qi).iputs = 0) := by
  refine ⟨?_, ?_, ?_⟩
  · intro e h1 h2
    simp [add_fsync_inode, h1, h2]
  · intro e h1 h2 h3 h4
    simp [add_fsync_inode, h1, h2, h3, h4]
  · intro en h
    unfold add_fsync_inode at h ⊢
    cases h1 : env.igetRetry ino with
    | error e => simp [h1] at h
    | ok u =>
      cases h2 : env.dquotInit ino with
      | error e => simp [h1, h2] at h
      | ok v =>
        cases qi with
        | false =>
          simp [h1, h2] at h ⊢
          simp [← h]
        | true =>
          cases h3 : env.dquotAllocInode ino with
          | error e => simp [h1, h2, h3] at h
          | ok w =>
            simp [h1, h2, h3] at h ⊢
            simp [← h]

/-- Concrete environment for witnesses: a quota-init failure on ino 5. -/
def envC9 : FsEnv where
  validPOR := fun _ => false
  readPage := fun _ => .error (-EINVAL)
  igetRetry := fun _ => .ok ()
  dquotInit := fun i => if i == 5 then .error (-EDQUOT) else .ok ()
  dquotAllocInode := fun _ => .ok ()
  recoverInodePageRes := fun _ => .ok ()
  freeBlocks := 8
  blocksPerSeg := 8
  startBlkaddr := 100

/-- Witness for claim C9 at a concrete input: quota init fails for ino 5, the
table stays empty and the single acquired handle is released. -/
theorem claim_C9_witness :
    (add_fsync_inode envC9 [] 5 false).res = .error (-EDQUOT) ∧
    (add_fsync_inode envC9 [] 5 false).list = [] ∧
    (add_fsync_inode envC9 [] 5 false).iputs = 1 :=
  (claim_C9 envC9 [] 5 false).1 (-EDQUOT) rfl rfl

/-- Mutating block-index operations performed by do_recover_data on one offset:
single-block truncation, reservation of an unwritten block, a run of the
collision resolver for a destination, and the index replacement
f3fs_replace_block(src, dest, version). -/
inductive IdxOp where
  | truncate : IdxOp
  | reserve : IdxOp
  | resolve : Nat → IdxOp
  | replace : Nat → Nat → Nat → IdxOp
  deriving DecidableEq, Repr

/-- Locator info returned by f3fs_get_dnode_of_data for do_recover_data. -/
structure DnInfo where
  nid : Nat
  pageOfs : Nat
  deriving DecidableEq, Repr

/-- Node info from f3fs_get_node_info. -/
structure NodeInfo where
  ino : Nat
  version : Nat
  deriving DecidableEq, Repr

/-- Collaborators of do_recover_data.  reserveRes and cipnRes are indexed by
the attempt number because the source retries them (under fault injection,
resp. on -ENOMEM); the fuel fields truncate those retry loops. -/
structure DrdEnv where
  validPOR : Nat → Bool
  keepIsize : Bool
  faultInjection : Bool
  reserveRes : Nat → Except Int Unit
  reserveFuel : Nat
  cipnRes : Nat → Nat → Except Int Unit
  cipnFuel : Nat
  inlineXattrRes : Except Int Unit
  hasXattrBlock : Nat → Bool
  xattrDataRes : Except Int Unit
  inlineDataRes : Int
  startBidxOf : Nat → Nat
  addrsPerPage : Nat
  getDnode : Nat → Except Int DnInfo
  getDnodeFuel : Nat
  nodeInfo : Nat → Except Int NodeInfo

/-- Retry loop on -ENOMEM (memalloc_retry_wait pattern), truncated by fuel. -/
def retryENOMEM {α : Type} (f : Nat → Except Int α) : Nat → Nat → Except Int α
  | attempt, 0 => f attempt
  | attempt, fuel+1 =>
    match f attempt with
    | .ok a => .ok a
    | .error e => if e == -ENOMEM then retryENOMEM f (attempt + 1) fuel else .error e

/-- The fault-injection retry around f3fs_reserve_new_block: retry while the
call fails and fault injection is configured, truncated by fuel. -/
def reserveLoop (f : Nat → Except Int Unit) (fault : Bool) : Nat → Nat → Except Int Unit
  | attempt, 0 => f attempt
  | attempt, fuel+1 =>
    match f attempt with
    | .ok u => .ok u
    | .error e => if fault then reserveLoop f fault (attempt + 1) fuel else .error e

/-- Per-offset state of the live dnode during index repair: the current data
address in the slot and the inode's i_size. -/
structure RState where
  addr : Nat
  isize : Nat
  deriving DecidableEq, Repr

/-- Outcome of one offset of the index-repair loop. -/
structure StepOut where
  err : Int
  st : RState
  ops : List IdxOp
  bug : Bool
  deriving DecidableEq, Repr

/-- The i_size extension performed before the NEW_ADDR and valid-dest cases:
when keep_isize is not set and the current i_size does not reach past this
block index, extend it to cover the block. -/
def isizeUpd (env : DrdEnv) (pos : Nat) (st : RState) : RState :=
  if !env.keepIsize && decide (st.isize ≤ pos * PAGE_SIZE_BYTES) then
    { st with isize := (pos + 1) * PAGE_SIZE_BYTES }
  else st

/-- One iteration of the do_recover_data index loop (the for over
[start, end)): src is the live slot (st.addr), dest the address in the
recovered page.  Mirrors recovery.c lines 634-706: META_POR checks on src and
dest, the identity skip, NULL_ADDR truncation, the i_size extension, the
NEW_ADDR truncate-then-reserve (the reserve result is ignored), and for a
META_POR-valid dest the optional reservation for a missing src (with the
fault-injection retry and f3fs_bug_on on failure), the ENOMEM-retried
collision resolver, and f3fs_replace_block at the node's version. -/
def recoverStep (env : DrdEnv) (ver : Nat) (pos : Nat) (st : RState) (dest : Nat) : StepOut :=
  if __is_valid_data_blkaddr st.addr && !env.validPOR st.addr then
    { err := -EFSCORRUPTED, st := st, ops := [], bug := false }
  else if __is_valid_data_blkaddr dest && !env.validPOR dest then
    { err := -EFSCORRUPTED, st := st, ops := [], bug := false }
  else if st.addr == dest then
    { err := 0, st := st, ops := [], bug := false }
  else if dest == NULL_ADDR then
    { err := 0, st := { st with addr := NULL_ADDR }, ops := [.truncate], bug := false }
  else if dest == NEW_ADDR then
    match env.reserveRes 0 with
    | .ok _ =>
      { err := 0, st := { isizeUpd env pos st with addr := NEW_ADDR },
        ops := [.truncate, .reserve], bug := false }
    | .error _ =>
      { err := 0, st := { isizeUpd env pos st with addr := NULL_ADDR },
        ops := [.truncate], bug := false }
  else if env.validPOR dest then
    if st.addr == NULL_ADDR then
      match reserveLoop env.reserveRes env.faultInjection 0 env.reserveFuel with
      | .error e => { err := e, st := isizeUpd env pos st, ops := [], bug := true }
      | .ok _ =>
        match retryENOMEM (env.cipnRes dest) 0 env.cipnFuel with
        | .error e =>
          { err := e, st := { isizeUpd env pos st with addr := NEW_ADDR },
            ops := [.reserve], bug := false }
        | .ok _ =>
          { err := 0, st := { isizeUpd env pos st with addr := dest },
            ops := [.reserve, .resolve dest, .replace st.addr dest ver], bug := false }
    else
      match retryENOMEM (env.cipnRes dest) 0 env.cipnFuel with
      | .error e => { err := e, st := isizeUpd env pos st, ops := [], bug := false }
      | .ok _ =>
        { err := 0, st := { isizeUpd env pos st with addr := dest },
          ops := [.resolve dest, .replace st.addr dest ver], bug := false }
  else
    { err := 0, st := isizeUpd env pos st, ops := [], bug := false }

/-- Pointwise update of a function modelling the dnode address slots. -/
def updateFn (f : Nat → Nat) (k v : Nat) : Nat → Nat := fun i => if i == k then v else f i

/-- Result of the index-repair loop over a node page. -/
structure IdxLoopOut where
  err : Int
  addrs : Nat → Nat
  isize : Nat
  ops : List IdxOp
  bug : Bool

/-- The do_recover_data loop over offsets [pos, pos + n): on the first failing
offset the loop stops with that error and only the operations of the completed
offsets (plus those performed at the failing offset before the failure). -/
def recoverIdxLoop (env : DrdEnv) (ver : Nat) (pageAddr : Nat → Nat) :
    Nat → Nat → (Nat → Nat) → Nat → IdxLoopOut
  | _pos, 0, addrs, isize =>
    { err := 0, addrs := addrs, isize := isize, ops := [], bug := false }
  | pos, n+1, addrs, isize =>
    let s := recoverStep env ver pos { addr := addrs pos, isize := isize } (pageAddr pos)
    let addrs2 := updateFn addrs pos s.st.addr
    if s.err != 0 then
      { err := s.err, addrs := addrs2, isize := s.st.isize, ops := s.ops, bug := s.bug }
    else
      let r := recoverIdxLoop env ver pageAddr (pos + 1) n addrs2 s.st.isize
      { err := r.err, addrs := r.addrs, isize := r.isize, ops := s.ops ++ r.ops,
        bug := s.bug || r.bug }

/-- Modelled from the claim wording of C1 (the spec's five-way case table): the
block-index actions the claim says data-index repair takes for one offset,
given src, dest and the node's version. -/
def claimedIndexActions (src dest ver : Nat) : List IdxOp :=
  if src = dest then []
  else if dest = NULL_ADDR then [.truncate]
  else if dest = NEW_ADDR then [.truncate, .reserve]
  else (if src = NULL_ADDR then [.reserve] else []) ++ [.resolve dest, .replace src dest ver]

theorem reserveLoop_start_ok (f : Nat → Except Int Unit) (fault : Bool) (fuel : Nat)
    (h : f 0 = .ok ()) : reserveLoop f fault 0 fuel = .ok () := by
  cases fuel <;> simp [reserveLoop, h]

theorem retryENOMEM_start_ok {α : Type} (f : Nat → Except Int α) (a : α) (fuel : Nat)
    (h : f 0 = .ok a) : retryENOMEM f 0 fuel = .ok a := by
  cases fuel <;> simp [retryENOMEM, h]

/-- Claim C1: for one offset of data-index repair, when the META_POR checks
pass and the fallible reservation and collision-resolver calls succeed, the
block-index actions taken are exactly the claim's case table: identical src and
dest change nothing; dest = NULL_ADDR truncates the single block at src;
dest = NEW_ADDR truncates src then reserves a new unwritten block; a valid dest
with src = NULL_ADDR reserves a new block first; and every valid dest runs the
collision resolver and then replaces the index with dest at the node's
version. -/
theorem claim_C1 (env : DrdEnv) (ver pos : Nat) (st : RState) (dest : Nat)
    (h1 : __is_valid_data_blkaddr st.addr = true → env.validPOR st.addr = true)
    (h2 : __is_valid_data_blkaddr dest = true → env.validPOR dest = true)
    (h3 : env.reserveRes 0 = .ok ())
    (h4 : env.cipnRes dest 0 = .ok ()) :
    (recoverStep env ver pos st dest).ops = claimedIndexActions st.addr dest ver ∧
    (recoverStep env ver pos st dest).err = 0 := by
  have c1 : (__is_valid_data_blkaddr st.addr && !env.validPOR st.addr) = false := by
    cases hv : __is_valid_data_blkaddr st.addr with
    | false => simp
    | true => simp [h1 hv]
  have c2 : (__is_valid_data_blkaddr dest && !env.validPOR dest) = false := by
    cases hv : __is_valid_data_blkaddr dest with
    | false => simp
    | true => simp [h2 hv]
  unfold recoverStep claimedIndexActions
  rw [c1, c2]
  by_cases hsd : st.addr = dest
  · simp [hsd]
  · by_cases hdn : dest = NULL_ADDR
    · subst hdn
      simp [hsd]
    · by_cases hdw : dest = NEW_ADDR
      · subst hdw
        simp [hsd, hdn, h3]
      · have hvd : __is_valid_data_blkaddr dest = true := by
          simp [__is_valid_data_blkaddr, hdn, hdw]
        have hre := retryENOMEM_start_ok (env.cipnRes dest) () env.cipnFuel h4
        have hrl := reserveLoop_start_ok env.reserveRes env.faultInjection env.reserveFuel h3
        by_cases hsn : st.addr = NULL_ADDR
        · rw [hsn] at hsd
          simp [hsd, hdn, hdw, hsn, h2 hvd, hre, hrl]
        · simp [hsd, hdn, hdw, hsn, h2 hvd, hre]

/-- Concrete do_recover_data environment for witnesses: only address 500 is
META_POR-valid; reservation and the collision resolver succeed. -/
def envC1 : DrdEnv where
  validPOR := fun a => a == 500
  keepIsize := false
  faultInjection := false
  reserveRes := fun _ => .ok ()
  reserveFuel := 4
  cipnRes := fun _ _ => .ok ()
  cipnFuel := 4
  inlineXattrRes := .ok ()
  hasXattrBlock := fun _ => false
  xattrDataRes := .ok ()
  inlineDataRes := 0
  startBidxOf := fun _ => 0
  addrsPerPage := 2
  getDnode := fun _ => .ok { nid := 3, pageOfs := 1 }
  getDnodeFuel := 4
  nodeInfo := fun _ => .ok { ino := 7, version := 9 }

/-- Witness for claim C1: src = NULL_ADDR, dest = 500 (META_POR-valid) at a
concrete environment takes reserve, resolve, replace in that order. -/
theorem claim_C1_witness :
    (recoverStep envC1 9 0 { addr := 0, isize := 0 } 500).ops =
      claimedIndexActions 0 500 9 ∧
    (recoverStep envC1 9 0 { addr := 0, isize := 0 } 500).err = 0 :=
  claim_C1 envC1 9 0 { addr := 0, isize := 0 } 500 (by decide) (by decide) rfl rfl

theorem recoverStep_replace_valid (env : DrdEnv) (ver pos : Nat) (st : RState) (dest : Nat) :
    ∀ op ∈ (recoverStep env ver pos st dest).ops,
      ∀ s d v, op = IdxOp.replace s d v → env.validPOR d = true := by
  intro op hop s d v heq
  subst heq
  unfold recoverStep at hop
  repeat' split at hop
  all_goals simp_all

/-- Claim C7: (a) every index replacement emitted by the data-index repair
loop has a destination accepted by META_POR, over any run of the loop and any
environment (so no block address is written by recovery unless META_POR
accepts it); (b) an offset where dest is neither NULL_ADDR nor NEW_ADDR and
fails META_POR, or where src is a valid data address failing META_POR, aborts
with -EFSCORRUPTED leaving state untouched and performing no operation at that
offset. -/
theorem claim_C7 (env : DrdEnv) (ver : Nat) (pageAddr addrs : Nat → Nat)
    (pos n : Nat) (isize : Nat) :
    (∀ op ∈ (recoverIdxLoop env ver pageAddr pos n addrs isize).ops,
       ∀ s d v, op = IdxOp.replace s d v → env.validPOR d = true) ∧
    (∀ (st : RState) (dest : Nat),
       ((__is_valid_data_blkaddr st.addr && !env.validPOR st.addr) ||
        (__is_valid_data_blkaddr dest && !env.validPOR dest)) = true →
       recoverStep env ver pos st dest =
         { err := -EFSCORRUPTED, st := st, ops := [], bug := false }) := by
  constructor
  · induction n generalizing pos addrs isize with
    | zero => simp [recoverIdxLoop]
    | succ m ih =>
      intro op hop s d v heq
      simp only [recoverIdxLoop] at hop
      split at hop
      · exact recoverStep_replace_valid env ver pos
          { addr := addrs pos, isize := isize } (pageAddr pos) op hop s d v heq
      · simp only [List.mem_append] at hop
        rcases hop with h | h
        · exact recoverStep_replace_valid env ver pos
            { addr := addrs pos, isize := isize } (pageAddr pos) op h s d v heq
        · exact ih _ _ _ op h s d v heq
  · intro st dest hbad
    rw [Bool.or_eq_true] at hbad
    unfold recoverStep
    rcases hbad with h | h
    · rw [if_pos h]
    · rw [h]
      split
      · rfl
      · rfl

/-- Witness for claim C7 at concrete inputs: the replacement written by a
one-offset run has a META_POR-accepted destination, and an invalid dest (7 is
neither NULL_ADDR nor NEW_ADDR and is rejected by envC1.validPOR) aborts with
-EFSCORRUPTED without any operation. -/
theorem claim_C7_witness :
    envC1.validPOR 500 = true ∧
    recoverStep envC1 9 0 { addr := 3, isize := 0 } 7 =
      { err := -EFSCORRUPTED, st := { addr := 3, isize := 0 }, ops := [], bug := false } :=
  ⟨(claim_C7 envC1 9 (fun _ => 500) (fun _ => 0) 0 1 0).1 (IdxOp.replace 0 500 9)
      (by decide) 0 500 9 rfl,
   (claim_C7 envC1 9 (fun _ => 500) (fun _ => 0) 0 1 0).2 { addr := 3, isize := 0 } 7 (by decide)⟩

/-- adjust_por_ra_blocks: double the read-ahead window when next is
contiguous (capped), halve it when next is not segment-aligned (floored). -/
def adjust_por_ra_blocks (env : FsEnv) (ra blkaddr nextBlkaddr : Nat) : Nat :=
  if blkaddr + 1 == nextBlkaddr then min RECOVERY_MAX_RA_BLOCKS (ra * 2)
  else if nextBlkaddr % env.blocksPerSeg != 0 then max RECOVERY_MIN_RA_BLOCKS (ra / 2)
  else ra

/-- Discovery lines 429-432: record the current block in the entry of this ino
(entry.blkaddr is overwritten at every fsync-marked node of the ino) and, when
the page is an inode page with the dentry mark, also the last_dentry block. -/
def markEntry (l : List FsyncEntry) (ino blk : Nat) (dent : Bool) : List FsyncEntry :=
  l.map fun e =>
    if e.ino == ino then
      { e with blkaddr := blk, lastDentry := if dent then blk else e.lastDentry }
    else e

/-- Result of the discovery walk: the returned error, the fsync-inode table,
the number of advances along footer links (steps), the number of
f3fs_recover_inode_page materializations, and the trace of (blkaddr, ino)
pairs at which an entry blkaddr was recorded. -/
structure DiscOut where
  err : Int
  list : List FsyncEntry
  steps : Nat
  materialized : Nat
  visits : List (Nat × Nat)
  deriving DecidableEq, Repr

/-- The fsync-marked part of one discovery iteration (lines 396-432): look the
ino up; for a missing entry, materialize the inode page first when the walk is
not check-only and the page is a dentry-marked inode page, then add the ino to
the table; a NotFound (-ENOENT) from the add is swallowed and the block
skipped; finally record blkaddr (and last_dentry) in the entry. -/
def processFsync (env : FsEnv) (co : Bool) (blkaddr : Nat) (page : NodePage)
    (head : List FsyncEntry) (mat : Nat) (vs : List (Nat × Nat)) :
    Except Int (List FsyncEntry × Nat × List (Nat × Nat)) :=
  if !page.fsyncMark then .ok (head, mat, vs)
  else
    match get_fsync_inode head page.ino with
    | some _ =>
      .ok (markEntry head page.ino blkaddr (page.isInode && page.dentMark), mat,
           vs ++ [(blkaddr, page.ino)])
    | none =>
      match
        (if !co && page.isInode && page.dentMark then
          match env.recoverInodePageRes blkaddr with
          | .error e => Except.error e
          | .ok _ => Except.ok (true, mat + 1)
        else Except.ok (false, mat) : Except Int (Bool × Nat)) with
      | .error e => .error e
      | .ok (quota_inode, mat2) =>
        match (add_fsync_inode env head page.ino quota_inode).res,
              (add_fsync_inode env head page.ino quota_inode).list with
        | .error e, _ =>
          if e == -ENOENT then .ok (head, mat2, vs) else .error e
        | .ok _, l2 =>
          .ok (markEntry l2 page.ino blkaddr (page.isInode && page.dentMark), mat2,
               vs ++ [(blkaddr, page.ino)])

/-- The find_fsync_dnodes walk (lines 379-453), fuel-indexed.  Each iteration:
stop cleanly on a non-META_POR address; read the page (propagating a read
error); stop cleanly on a checkpoint-version mismatch; process the fsync part;
then the looped-chain check aborts with -EINVAL when the incremented counter
reaches the number of free blocks or the footer points back at the current
block; otherwise advance along next_blkaddr with the adjusted read-ahead
window.  Fuel exhaustion yields none; freeBlocks + 1 fuel is proven
sufficient below. -/
def findLoop (env : FsEnv) (co : Bool) :
    Nat → Nat → List FsyncEntry → Nat → Nat → Nat → List (Nat × Nat) → Option DiscOut
  | 0, _, _, _, _, _, _ => none
  | fuel+1, blkaddr, head, loopCnt, ra, mat, vs =>
    if !env.validPOR blkaddr then
      some { err := 0, list := head, steps := 0, materialized := mat, visits := vs }
    else
      match env.readPage blkaddr with
      | .error e => some { err := e, list := head, steps := 0, materialized := mat, visits := vs }
      | .ok page =>
        if !page.recoverable then
          some { err := 0, list := head, steps := 0, materialized := mat, visits := vs }
        else
          match processFsync env co blkaddr page head mat vs with
          | .error e =>
            some { err := e, list := head, steps := 0, materialized := mat, visits := vs }
          | .ok (head2, mat2, vs2) =>
            if env.freeBlocks ≤ loopCnt + 1 || blkaddr == page.nextBlkaddr then
              some { err := -EINVAL, list := head2, steps := 0, materialized := mat2, visits := vs2 }
            else
              match findLoop env co fuel page.nextBlkaddr head2 (loopCnt + 1)
                  (adjust_por_ra_blocks env ra blkaddr page.nextBlkaddr) mat2 vs2 with
              | none => none
              | some r => some { r with steps := r.steps + 1 }

/-- find_fsync_dnodes: start at the first free block of the warm-node current
segment with a zero loop counter and the maximal read-ahead window. -/
def find_fsync_dnodes (env : FsEnv) (co : Bool) : Option DiscOut :=
  findLoop env co (env.freeBlocks + 1) env.startBlkaddr [] 0 RECOVERY_MAX_RA_BLOCKS 0 []

/-- The walk terminates (returns some) and advances at most
freeBlocks - loopCnt times whenever the fuel exceeds that margin: the
looped-chain counter check bounds the recursion before fuel can run out. -/
theorem findLoop_total_steps (env : FsEnv) (co : Bool) :
    ∀ fuel b hd cnt ra m vs, env.freeBlocks - cnt < fuel →
      ∃ r, findLoop env co fuel b hd cnt ra m vs = some r ∧
        r.steps ≤ env.freeBlocks - cnt := by
  intro fuel
  induction fuel with
  | zero => intro b hd cnt ra m vs h; omega
  | succ f ih =>
    intro b hd cnt ra m vs h
    simp only [findLoop]
    by_cases hv : env.validPOR b
    · simp only [hv, Bool.not_true, Bool.false_eq_true, if_false]
      cases hrp : env.readPage b with
      | error e => exact ⟨_, rfl, by simp⟩
      | ok page =>
        by_cases hrec : page.recoverable
        · simp only [hrec, Bool.not_true, Bool.false_eq_true, if_false]
          cases hpf : processFsync env co b page hd m vs with
          | error e => exact ⟨_, rfl, by simp⟩
          | ok t =>
            obtain ⟨hd2, m2, vs2⟩ := t
            dsimp only
            by_cases hstop : (decide (env.freeBlocks ≤ cnt + 1) || (b == page.nextBlkaddr)) = true
            · rw [if_pos hstop]
              exact ⟨_, rfl, by simp⟩
            · rw [if_neg hstop]
              have hb := Bool.eq_false_iff.mpr hstop
              rw [Bool.or_eq_false_iff] at hb
              have hlt : cnt + 1 < env.freeBlocks := by
                have h1 := hb.1
                simp only [decide_eq_false_iff_not, Nat.not_le] at h1
                omega
              obtain ⟨r, hr, hrs⟩ := ih page.nextBlkaddr hd2 (cnt + 1)
                (adjust_por_ra_blocks env ra b page.nextBlkaddr) m2 vs2 (by omega)
              rw [hr]
              refine ⟨_, rfl, ?_⟩
              show r.steps + 1 ≤ env.freeBlocks - cnt
              omega
        · simp only [hrec]
          exact ⟨_, rfl, by simp⟩
    · simp only [hv]
      exact ⟨_, rfl, by simp⟩

/-- Claim C2: the discovery walk advances along footer links at most F times,
F = number of free main-area blocks (first conjunct; in particular the walk
terminates on every chain); and at any reached block whose processing
completes, the walk aborts with -EINVAL without advancing when the footer
points back at the current block (second conjunct) or when the incremented
step counter reaches F (third conjunct) — so a chain with a back-edge is never
followed around the cycle. -/
theorem claim_C2 (env : FsEnv) (co : Bool) :
    (∃ r, find_fsync_dnodes env co = some r ∧ r.steps ≤ env.freeBlocks) ∧
    (∀ fuel b page hd cnt ra m vs hd2 m2 vs2,
      env.validPOR b = true → env.readPage b = .ok page → page.recoverable = true →
      processFsync env co b page hd m vs = .ok (hd2, m2, vs2) →
      page.nextBlkaddr = b →
      findLoop env co (fuel + 1) b hd cnt ra m vs =
        some { err := -EINVAL, list := hd2, steps := 0, materialized := m2, visits := vs2 }) ∧
    (∀ fuel b page hd cnt ra m vs hd2 m2 vs2,
      env.validPOR b = true → env.readPage b = .ok page → page.recoverable = true →
      processFsync env co b page hd m vs = .ok (hd2, m2, vs2) →
      env.freeBlocks ≤ cnt + 1 →
      findLoop env co (fuel + 1) b hd cnt ra m vs =
        some { err := -EINVAL, list := hd2, steps := 0, materialized := m2, visits := vs2 }) := by
  refine ⟨?_, ?_, ?_⟩
  · obtain ⟨r, hr, hs⟩ := findLoop_total_steps env co (env.freeBlocks + 1)
      env.startBlkaddr [] 0 RECOVERY_MAX_RA_BLOCKS 0 [] (by omega)
    exact ⟨r, hr, le_trans hs (Nat.sub_le _ _)⟩
  · intro fuel b page hd cnt ra m vs hd2 m2 vs2 hv hrp hrec hpf hnext
    simp only [findLoop, hv, Bool.not_true, Bool.false_eq_true, if_false, hrp, hrec, hpf]
    rw [if_pos (Bool.or_eq_true _ _ ▸ Or.inr (by rw [hnext, beq_self_eq_true]))]
  · intro fuel b page hd cnt ra m vs hd2 m2 vs2 hv hrp hrec hpf hcnt
    simp only [findLoop, hv, Bool.not_true, Bool.false_eq_true, if_false, hrp, hrec, hpf]
    rw [if_pos (Bool.or_eq_true _ _ ▸ Or.inl (decide_eq_true hcnt))]

/-- All-zero raw inode body, used by concrete witness pages. -/
def rawZero : RawInode where
  mode := 0
  uid := 0
  gid := 0
  size := 0
  atime := 0
  ctime := 0
  mtime := 0
  atimeNsec := 0
  ctimeNsec := 0
  mtimeNsec := 0
  advise := 0
  flags := 0
  gcFailures := 0
  projid := 0
  namelen := 0
  pino := 0
  inlinePin := false
  inlineDataExist := false
  inlineExtraAttr := false
  fitsProjid := false

/-- A recoverable non-fsync node page at 100 whose footer points back at 100. -/
def pageLoop : NodePage where
  ino := 7
  ofs := 0
  nextBlkaddr := 100
  isInode := false
  fsyncMark := false
  dentMark := false
  recoverable := true
  raw := rawZero
  dataAddrs := fun _ => 0

/-- Environment with a single self-looping block at address 100. -/
def envC2 : FsEnv where
  validPOR := fun b => b == 100
  readPage := fun b => if b == 100 then .ok pageLoop else .error (-EINVAL)
  igetRetry := fun _ => .ok ()
  dquotInit := fun _ => .ok ()
  dquotAllocInode := fun _ => .ok ()
  recoverInodePageRes := fun _ => .ok ()
  freeBlocks := 5
  blocksPerSeg := 8
  startBlkaddr := 100

/-- Witness for claim C2: on the concrete self-loop at 100 the walk stays
within the free-block bound and the back-edge aborts at once with -EINVAL. -/
theorem claim_C2_witness :
    (∃ r, find_fsync_dnodes envC2 false = some r ∧ r.steps ≤ envC2.freeBlocks) ∧
    findLoop envC2 false 3 100 [] 0 RECOVERY_MAX_RA_BLOCKS 0 [] =
      some { err := -EINVAL, list := [], steps := 0, materialized := 0, visits := [] } :=
  ⟨(claim_C2 envC2 false).1,
   (claim_C2 envC2 false).2.1 2 100 pageLoop [] 0 RECOVERY_MAX_RA_BLOCKS 0 [] [] 0 []
     rfl rfl rfl rfl rfl⟩

/-- A fallible collaborator result whose error codes are negative (the kernel
convention recovery.c relies on when testing err). -/
def ExceptNeg {α : Type} (r : Except Int α) : Prop := ∀ e, r = .error e → e < 0

/-- Well-formed environment: every collaborator reports errors as negative. -/
structure EnvOK (env : FsEnv) : Prop where
  readPage : ∀ b, ExceptNeg (env.readPage b)
  igetRetry : ∀ i, ExceptNeg (env.igetRetry i)
  dquotInit : ∀ i, ExceptNeg (env.dquotInit i)
  dquotAllocInode : ∀ i, ExceptNeg (env.dquotAllocInode i)
  recoverInodePageRes : ∀ b, ExceptNeg (env.recoverInodePageRes b)

theorem add_fsync_inode_err_neg (env : FsEnv) (hok : EnvOK env) (hd : List FsyncEntry)
    (ino : Nat) (qi : Bool) (e : Int)
    (h : (add_fsync_inode env hd ino qi).res = .error e) : e < 0 := by
  unfold add_fsync_inode at h
  cases h1 : env.igetRetry ino with
  | error e2 =>
    have := hok.igetRetry ino e2 h1
    simp [h1] at h
    omega
  | ok u =>
    cases h2 : env.dquotInit ino with
    | error e2 =>
      have := hok.dquotInit ino e2 h2
      simp [h1, h2] at h
      omega
    | ok v =>
      cases qi with
      | false => simp [h1, h2] at h
      | true =>
        cases h3 : env.dquotAllocInode ino with
        | error e2 =>
          have := hok.dquotAllocInode ino e2 h3
          simp [h1, h2, h3] at h
          omega
        | ok w => simp [h1, h2, h3] at h

theorem processFsync_err_neg (env : FsEnv) (hok : EnvOK env) (co : Bool) (b : Nat)
    (page : NodePage) (hd : List FsyncEntry) (m : Nat) (vs : List (Nat × Nat)) (e : Int)
    (h : processFsync env co b page hd m vs = .error e) : e < 0 := by
  unfold processFsync at h
  by_cases hf : page.fsyncMark
  · simp only [hf, Bool.not_true, Bool.false_eq_true, if_false] at h
    cases hg : get_fsync_inode hd page.ino with
    | some en => rw [hg] at h; simp at h
    | none =>
      rw [hg] at h
      by_cases hpre : (!co && page.isInode && page.dentMark) = true
      · cases hri : env.recoverInodePageRes b with
        | error e2 =>
          have := hok.recoverInodePageRes b e2 hri
          simp [hpre, hri] at h
          omega
        | ok u =>
          simp only [hpre, hri, if_true] at h
          cases ha : (add_fsync_inode env hd page.ino true).res with
          | error e2 =>
            have hneg := add_fsync_inode_err_neg env hok hd page.ino true e2 ha
            rw [ha] at h
            by_cases he2 : (e2 == -ENOENT) = true
            · simp [he2] at h
            · simp [he2] at h
              omega
          | ok en =>
            rw [ha] at h
            simp at h
      · have hpre2 : (!co && page.isInode && page.dentMark) = false :=
          Bool.eq_false_iff.mpr hpre
        simp only [hpre2, Bool.false_eq_true, if_false] at h
        cases ha : (add_fsync_inode env hd page.ino false).res with
        | error e2 =>
          have hneg := add_fsync_inode_err_neg env hok hd page.ino false e2 ha
          rw [ha] at h
          by_cases he2 : (e2 == -ENOENT) = true
          · simp [he2] at h
          · simp [he2] at h
            omega
        | ok en =>
          rw [ha] at h
          simp at h
  · simp only [Bool.not_eq_true] at hf
    simp [hf] at h

theorem findLoop_err_nonpos (env : FsEnv) (hok : EnvOK env) (co : Bool) :
    ∀ fuel b hd cnt ra m vs r, findLoop env co fuel b hd cnt ra m vs = some r →
      r.err ≤ 0 := by
  intro fuel
  induction fuel with
  | zero => intro b hd cnt ra m vs r h; simp [findLoop] at h
  | succ f ih =>
    intro b hd cnt ra m vs r h
    simp only [findLoop] at h
    by_cases hv : env.validPOR b
    · simp only [hv, Bool.not_true, Bool.false_eq_true, if_false] at h
      cases hrp : env.readPage b with
      | error e =>
        have hneg := hok.readPage b e hrp
        rw [hrp] at h
        simp only [Option.some.injEq] at h
        subst h
        simp
        omega
      | ok page =>
        rw [hrp] at h
        by_cases hrec : page.recoverable
        · simp only [hrec, Bool.not_true, Bool.false_eq_true, if_false] at h
          cases hpf : processFsync env co b page hd m vs with
          | error e =>
            have hneg := processFsync_err_neg env hok co b page hd m vs e hpf
            rw [hpf] at h
            simp only [Option.some.injEq] at h
            subst h
            simp
            omega
          | ok t =>
            obtain ⟨hd2, m2, vs2⟩ := t
            rw [hpf] at h
            dsimp only at h
            by_cases hstop :
                (decide (env.freeBlocks ≤ cnt + 1) || (b == page.nextBlkaddr)) = true
            · rw [if_pos hstop] at h
              simp only [Option.some.injEq] at h
              subst h
              simp [EINVAL]
            · rw [if_neg hstop] at h
              cases hnl : findLoop env co f page.nextBlkaddr hd2 (cnt + 1)
                  (adjust_por_ra_blocks env ra b page.nextBlkaddr) m2 vs2 with
              | none => rw [hnl] at h; simp at h
              | some r2 =>
                have := ih page.nextBlkaddr hd2 (cnt + 1)
                  (adjust_por_ra_blocks env ra b page.nextBlkaddr) m2 vs2 r2 hnl
                rw [hnl] at h
                simp only [Option.some.injEq] at h
                subst h
                simpa using this
        · simp only [Bool.not_eq_true] at hrec
          simp only [hrec, Bool.not_false, if_true, Option.some.injEq] at h
          subst h
          simp
    · simp only [hv] at h
      simp only [Bool.not_false, if_true, Option.some.injEq] at h
      subst h
      simp

theorem processFsync_checkonly_mat (env : FsEnv) (b : Nat) (page : NodePage)
    (hd : List FsyncEntry) (m : Nat) (vs : List (Nat × Nat))
    (hd2 : List FsyncEntry) (m2 : Nat) (vs2 : List (Nat × Nat))
    (h : processFsync env true b page hd m vs = .ok (hd2, m2, vs2)) : m2 = m := by
  unfold processFsync at h
  by_cases hf : page.fsyncMark
  · simp only [hf, Bool.not_true, Bool.false_eq_true, if_false] at h
    cases hg : get_fsync_inode hd page.ino with
    | some en =>
      rw [hg] at h
      simp at h
      exact h.2.1.symm
    | none =>
      rw [hg] at h
      simp only [Bool.not_true, Bool.false_and, Bool.false_eq_true, if_false] at h
      cases ha : (add_fsync_inode env hd page.ino false).res with
      | error e2 =>
        rw [ha] at h
        by_cases he2 : (e2 == -ENOENT) = true
        · simp [he2] at h
          exact h.2.1.symm
        · simp [he2] at h
      | ok en =>
        rw [ha] at h
        simp at h
        exact h.2.1.symm
  · simp only [Bool.not_eq_true] at hf
    simp [hf] at h
    exact h.2.1.symm

theorem findLoop_checkonly_mat (env : FsEnv) :
    ∀ fuel b hd cnt ra m vs r, findLoop env true fuel b hd cnt ra m vs = some r →
      r.materialized = m := by
  intro fuel
  induction fuel with
  | zero => intro b hd cnt ra m vs r h; simp [findLoop] at h
  | succ f ih =>
    intro b hd cnt ra m vs r h
    simp only [findLoop] at h
    by_cases hv : env.validPOR b
    · simp only [hv, Bool.not_true, Bool.false_eq_true, if_false] at h
      cases hrp : env.readPage b with
      | error e =>
        rw [hrp] at h
        simp only [Option.some.injEq] at h
        subst h
        rfl
      | ok page =>
        rw [hrp] at h
        by_cases hrec : page.recoverable
        · simp only [hrec, Bool.not_true, Bool.false_eq_true, if_false] at h
          cases hpf : processFsync env true b page hd m vs with
          | error e =>
            rw [hpf] at h
            simp only [Option.some.injEq] at h
            subst h
            rfl
          | ok t =>
            obtain ⟨hd2, m2, vs2⟩ := t
            have hm2 : m2 = m := processFsync_checkonly_mat env b page hd m vs hd2 m2 vs2 hpf
            rw [hpf] at h
            dsimp only at h
            by_cases hstop :
                (decide (env.freeBlocks ≤ cnt + 1) || (b == page.nextBlkaddr)) = true
            · rw [if_pos hstop] at h
              simp only [Option.some.injEq] at h
              subst h
              exact hm2
            · rw [if_neg hstop] at h
              cases hnl : findLoop env true f page.nextBlkaddr hd2 (cnt + 1)
                  (adjust_por_ra_blocks env ra b page.nextBlkaddr) m2 vs2 with
              | none => rw [hnl] at h; simp at h
              | some r2 =>
                have := ih page.nextBlkaddr hd2 (cnt + 1)
                  (adjust_por_ra_blocks env ra b page.nextBlkaddr) m2 vs2 r2 hnl
                rw [hnl] at h
                simp only [Option.some.injEq] at h
                subst h
                simpa [hm2] using this
        · simp only [Bool.not_eq_true] at hrec
          simp only [hrec, Bool.not_false, if_true, Option.some.injEq] at h
          subst h
          rfl
    · simp only [hv] at h
      simp only [Bool.not_false, if_true, Option.some.injEq] at h
      subst h
      rfl

/-- Environment of the orchestrator beyond FsEnv: read-only state, zoned
device flag, the outcome of f3fs_fix_curseg_write_pointer and of
f3fs_write_checkpoint, and the outcome of the repair pass recover_data (its
internals are modelled separately as recoverDataLoop; here only its returned
error and the final inode list matter to control flow). -/
structure OrchEnv where
  fs : FsEnv
  readonly : Bool
  blkzoned : Bool
  fixWpRes : Int
  writeCpRes : Int
  rdErr : Int
  rdInodeList : List FsyncEntry

/-- Observable outcome of f3fs_recover_fsync_data: the returned value, the
discovery result, and which externally visible actions ran: the repair pass,
the zoned write-pointer fix, and the checkpoint write. -/
structure OrchOut where
  ret : Int
  discErr : Int
  discList : List FsyncEntry
  materialized : Nat
  rdCalled : Bool
  fixWpCalled : Bool
  cpWritten : Bool
  fuelOut : Bool
  deriving DecidableEq, Repr

/-- The tail of f3fs_recover_fsync_data from the skip label (lines 844-896):
decide the zoned write-pointer fix (needing err = 0, the fix allowed when not
check-only or the inode list ended empty, a writable fs and a zoned device,
with ret := err := its result), then the checkpoint write when need_writecp
and no error so far, and finally return ret when nonzero else err. -/
def orchSkip (env : OrchEnv) (check_only : Bool) (d : DiscOut)
    (err1 ret1 : Int) (il : List FsyncEntry) (rdCalled needCp : Bool) : OrchOut :=
  { ret :=
      if (if (err1 == 0 && (!check_only || il.isEmpty) && !env.readonly && env.blkzoned)
          then env.fixWpRes else ret1) != 0 then
        (if (err1 == 0 && (!check_only || il.isEmpty) && !env.readonly && env.blkzoned)
          then env.fixWpRes else ret1)
      else
        if needCp &&
            ((if (err1 == 0 && (!check_only || il.isEmpty) && !env.readonly && env.blkzoned)
              then env.fixWpRes else err1) == 0) then
          env.writeCpRes
        else
          (if (err1 == 0 && (!check_only || il.isEmpty) && !env.readonly && env.blkzoned)
            then env.fixWpRes else err1)
    discErr := d.err
    discList := d.list
    materialized := d.materialized
    rdCalled := rdCalled
    fixWpCalled := err1 == 0 && (!check_only || il.isEmpty) && !env.readonly && env.blkzoned
    cpWritten := needCp &&
      ((if (err1 == 0 && (!check_only || il.isEmpty) && !env.readonly && env.blkzoned)
        then env.fixWpRes else err1) == 0)
    fuelOut := false }

/-- f3fs_recover_fsync_data (lines 796-897): run discovery; if it failed or
found nothing, skip; in check-only mode with a non-empty table return 1 before
the repair pass and the commit path; otherwise set need_writecp and run the
repair pass, then fall into the shared teardown. -/
def f3fs_recover_fsync_data (env : OrchEnv) (check_only : Bool) : OrchOut :=
  match find_fsync_dnodes env.fs check_only with
  | none =>
    { ret := 0, discErr := 0, discList := [], materialized := 0, rdCalled := false,
      fixWpCalled := false, cpWritten := false, fuelOut := true }
  | some d =>
    if d.err != 0 || d.list.isEmpty then
      orchSkip env check_only d d.err 0 d.list false false
    else if check_only then
      orchSkip env check_only d d.err 1 d.list false false
    else
      orchSkip env check_only d env.rdErr 0 env.rdInodeList true true

theorem isEmpty_true_eq_nil {α : Type} (l : List α) (h : l.isEmpty = true) : l = [] := by
  cases l with
  | nil => rfl
  | cons a t => simp at h

theorem isEmpty_false_ne_nil {α : Type} (l : List α) (h : l.isEmpty = false) : l ≠ [] := by
  intro hc
  rw [hc] at h
  simp at h

/-- With ret1 = 0 and no checkpoint (needCp = false), the skip tail returns a
non-positive value when the incoming error and the write-pointer fix result
are non-positive; in particular it never returns 1. -/
theorem orchSkip_ret_nonpos (env : OrchEnv) (co : Bool) (d : DiscOut) (err1 : Int)
    (il : List FsyncEntry) (rdC : Bool) (h1 : err1 ≤ 0) (hfix : env.fixWpRes ≤ 0) :
    (orchSkip env co d err1 0 il rdC false).ret ≤ 0 := by
  unfold orchSkip
  dsimp only
  simp only [Bool.false_and, Bool.false_eq_true, if_false]
  by_cases hdf : (err1 == 0 && (!co || il.isEmpty) && !env.readonly && env.blkzoned) = true
  · simp only [if_pos hdf]
    split <;> omega
  · simp only [if_neg hdf]
    simp
    omega

/-- Claim C3 (amended): with check_only = true, f3fs_recover_fsync_data
returns 1 iff discovery succeeded with a non-empty fsync-inode table; it never
writes a checkpoint, never runs the repair pass, and never materializes inode
pages; and the only persistent mutation it can still invoke is the zoned
write-pointer fix, which runs only when discovery succeeded with an empty
table (on a writable zoned filesystem). -/
theorem claim_C3 (env : OrchEnv) (hok : EnvOK env.fs) (hfix : env.fixWpRes ≤ 0)
    (d : DiscOut) (hd : find_fsync_dnodes env.fs true = some d) :
    ((f3fs_recover_fsync_data env true).ret = 1 ↔ (d.err = 0 ∧ d.list ≠ [])) ∧
    (f3fs_recover_fsync_data env true).cpWritten = false ∧
    (f3fs_recover_fsync_data env true).rdCalled = false ∧
    (f3fs_recover_fsync_data env true).materialized = 0 ∧
    ((f3fs_recover_fsync_data env true).fixWpCalled = true →
      d.err = 0 ∧ d.list = []) := by
  have herr : d.err ≤ 0 := findLoop_err_nonpos env.fs hok true _ _ _ _ _ _ _ d hd
  have hmat : d.materialized = 0 := findLoop_checkonly_mat env.fs _ _ _ _ _ _ _ d hd
  unfold f3fs_recover_fsync_data
  rw [hd]
  dsimp only
  by_cases hskip : (d.err != 0 || d.list.isEmpty) = true
  · rw [if_pos hskip]
    have hnp := orchSkip_ret_nonpos env true d d.err d.list false herr hfix
    have hrhs : ¬(d.err = 0 ∧ d.list ≠ []) := by
      rcases (Bool.or_eq_true _ _ ▸ hskip) with h | h
      · intro hc
        rw [hc.1] at h
        simp at h
      · intro hc
        exact hc.2 (isEmpty_true_eq_nil d.list h)
    refine ⟨⟨fun hr => absurd (hr ▸ hnp) (by norm_num), fun hr => absurd hr hrhs⟩,
      ?_, ?_, ?_, ?_⟩
    · simp [orchSkip]
    · simp [orchSkip]
    · simp [orchSkip, hmat]
    · intro hfx
      simp only [orchSkip, Bool.and_eq_true, beq_iff_eq] at hfx
      obtain ⟨⟨⟨he, hor⟩, _⟩, _⟩ := hfx
      refine ⟨he, ?_⟩
      simp only [Bool.not_true, Bool.false_or] at hor
      exact isEmpty_true_eq_nil d.list hor
  · rw [if_neg hskip]
    have hsf := Bool.eq_false_iff.mpr hskip
    rw [Bool.or_eq_false_iff] at hsf
    have hene : d.err = 0 := by
      have h1 := hsf.1
      simpa using h1
    have hil : d.list.isEmpty = false := hsf.2
    rw [if_pos rfl]
    have hds : orchSkip env true d d.err 1 d.list false false =
        { ret := 1, discErr := d.err, discList := d.list, materialized := d.materialized,
          rdCalled := false, fixWpCalled := false, cpWritten := false, fuelOut := false } := by
      unfold orchSkip
      rw [hene]
      simp [hil]
    rw [hds]
    exact ⟨⟨fun _ => ⟨hene, isEmpty_false_ne_nil d.list hil⟩, fun _ => rfl⟩, rfl, rfl, hmat,
      fun hfx => absurd hfx (by simp)⟩

/-- Discovery environment with an empty post-checkpoint chain (the start
address is already outside META_POR). -/
def envC3fs : FsEnv where
  validPOR := fun _ => false
  readPage := fun _ => .error (-EINVAL)
  igetRetry := fun _ => .error (-ENOENT)
  dquotInit := fun _ => .ok ()
  dquotAllocInode := fun _ => .ok ()
  recoverInodePageRes := fun _ => .ok ()
  freeBlocks := 4
  blocksPerSeg := 8
  startBlkaddr := 100

/-- Orchestrator environment over envC3fs: a writable zoned device. -/
def envC3orch : OrchEnv where
  fs := envC3fs
  readonly := false
  blkzoned := true
  fixWpRes := 0
  writeCpRes := 0
  rdErr := 0
  rdInodeList := []

/-- Counterexample to claim C3 as stated.  The claim says that in check-only
mode the function mutates no persistent state; but on a writable zoned
filesystem whose discovery ends with an empty table, the check-only run still
invokes f3fs_fix_curseg_write_pointer (recovery.c lines 845 and 864-867,
fix_curseg_write_pointer = !check_only || list_empty(&inode_list)), which
rewrites zoned-device write pointers — a persistent mutation. -/
theorem claim_C3_counterexample :
    (f3fs_recover_fsync_data envC3orch true).fixWpCalled = true ∧
    (f3fs_recover_fsync_data envC3orch true).ret = 0 := by decide

/-- A single fsync-marked dnode for ino 7 at block 100, chain ends at 101. -/
def pageC3 : NodePage where
  ino := 7
  ofs := 0
  nextBlkaddr := 101
  isInode := false
  fsyncMark := true
  dentMark := false
  recoverable := true
  raw := rawZero
  dataAddrs := fun _ => 0

/-- Discovery environment with exactly one fsync-marked node block at 100. -/
def envC3wfs : FsEnv where
  validPOR := fun b => b == 100
  readPage := fun b => if b == 100 then .ok pageC3 else .error (-EINVAL)
  igetRetry := fun _ => .ok ()
  dquotInit := fun _ => .ok ()
  dquotAllocInode := fun _ => .ok ()
  recoverInodePageRes := fun _ => .ok ()
  freeBlocks := 4
  blocksPerSeg := 8
  startBlkaddr := 100

/-- Orchestrator environment over envC3wfs (not zoned). -/
def envC3worch : OrchEnv where
  fs := envC3wfs
  readonly := false
  blkzoned := false
  fixWpRes := 0
  writeCpRes := 0
  rdErr := 0
  rdInodeList := []

/-- The discovery outcome on envC3wfs. -/
def discC3w : DiscOut where
  err := 0
  list := [{ ino := 7, blkaddr := 100, lastDentry := 0 }]
  steps := 1
  materialized := 0
  visits := [(100, 7)]

/-- Witness for claim C3 (amended) at a concrete input: one fsync-marked node
found in check-only mode, the run returns 1, writes no checkpoint, runs no
repair, materializes nothing, and never calls the write-pointer fix. -/
theorem claim_C3_witness :
    ((f3fs_recover_fsync_data envC3worch true).ret = 1 ↔
      (discC3w.err = 0 ∧ discC3w.list ≠ [])) ∧
    (f3fs_recover_fsync_data envC3worch true).cpWritten = false ∧
    (f3fs_recover_fsync_data envC3worch true).rdCalled = false ∧
    (f3fs_recover_fsync_data envC3worch true).materialized = 0 ∧
    ((f3fs_recover_fsync_data envC3worch true).fixWpCalled = true →
      discC3w.err = 0 ∧ discC3w.list = []) := by
  refine claim_C3 envC3worch ?_ (by decide) discC3w (by decide)
  constructor
  · intro b e h
    simp only [envC3worch, envC3wfs] at h
    split at h
    · simp at h
    · simp only [Except.error.injEq] at h
      simp only [EINVAL] at h
      omega
  · intro i e h
    simp [envC3worch, envC3wfs] at h
  · intro i e h
    simp [envC3worch, envC3wfs] at h
  · intro i e h
    simp [envC3worch, envC3wfs] at h
  · intro i e h
    simp [envC3worch, envC3wfs] at h

/-- Test for the NotFound outcome of f3fs_iget_retry. -/
def isENOENT : Except Int Unit → Bool
  | .error e => e == -ENOENT
  | .ok _ => false

theorem isENOENT_eq (r : Except Int Unit) (h : isENOENT r = true) :
    r = .error (-ENOENT) := by
  cases r with
  | error e =>
    simp only [isENOENT, beq_iff_eq] at h
    rw [h]
  | ok u => simp [isENOENT] at h

/-- A chain of n post-checkpoint blocks that are all recoverable fsync-marked
non-inode-page dnodes whose ino has no NAT entry (f3fs_iget_retry yields
-ENOENT), each advancing without a self-loop, followed by a non-META_POR
terminator. -/
def notFoundChain (env : FsEnv) : Nat → Nat → Bool
  | b, 0 => !env.validPOR b
  | b, n+1 =>
    env.validPOR b &&
      (match env.readPage b with
       | .ok p =>
         p.recoverable && p.fsyncMark && !(p.isInode && p.dentMark) &&
           isENOENT (env.igetRetry p.ino) && (p.nextBlkaddr != b) &&
           notFoundChain env p.nextBlkaddr n
       | .error _ => false)

theorem processFsync_enoent_skip (env : FsEnv) (co : Bool) (b : Nat) (page : NodePage)
    (hd : List FsyncEntry) (m : Nat) (vs : List (Nat × Nat))
    (hf : page.fsyncMark = true) (hfind : get_fsync_inode hd page.ino = none)
    (hpre : (!co && page.isInode && page.dentMark) = false)
    (hig : env.igetRetry page.ino = .error (-ENOENT)) :
    processFsync env co b page hd m vs = .ok (hd, m, vs) := by
  have hadd : (add_fsync_inode env hd page.ino false).res = .error (-ENOENT) := by
    unfold add_fsync_inode
    rw [hig]
  unfold processFsync
  simp [hf, hfind, hpre, hadd]

/-- On a NotFound chain shorter than the free-block bound, discovery starting
from an empty table walks all n blocks, adds nothing, and stops cleanly. -/
theorem notFoundChain_findLoop (env : FsEnv) :
    ∀ n fuel b cnt ra m vs, notFoundChain env b n = true →
      cnt + n < env.freeBlocks → n < fuel →
      findLoop env false fuel b [] cnt ra m vs =
        some { err := 0, list := [], steps := n, materialized := m, visits := vs } := by
  intro n
  induction n with
  | zero =>
    intro fuel b cnt ra m vs hch hcnt hfuel
    cases fuel with
    | zero => omega
    | succ f =>
      unfold notFoundChain at hch
      simp only [Bool.not_eq_true'] at hch
      simp [findLoop, hch]
  | succ k ih =>
    intro fuel b cnt ra m vs hch hcnt hfuel
    cases fuel with
    | zero => omega
    | succ f =>
      unfold notFoundChain at hch
      rw [Bool.and_eq_true] at hch
      obtain ⟨hv, hrest⟩ := hch
      cases hrp : env.readPage b with
      | error e => rw [hrp] at hrest; simp at hrest
      | ok p =>
        rw [hrp] at hrest
        simp only [Bool.and_eq_true, Bool.not_eq_true'] at hrest
        obtain ⟨⟨⟨⟨⟨hrec, hfm⟩, hpre⟩, hig⟩, hnb⟩, hchain⟩ := hrest
        have hig2 : env.igetRetry p.ino = .error (-ENOENT) :=
          isENOENT_eq (env.igetRetry p.ino) hig
        have hpre2 : (!false && p.isInode && p.dentMark) = false := by
          simp only [Bool.not_false, Bool.true_and]
          exact hpre
        have hpf : processFsync env false b p [] m vs = .ok ([], m, vs) :=
          processFsync_enoent_skip env false b p [] m vs hfm rfl hpre2 hig2
        have hbne : (b == p.nextBlkaddr) = false := by
          rw [beq_eq_false_iff_ne]
          intro hc
          rw [bne_iff_ne] at hnb
          exact hnb hc.symm
        simp only [findLoop, hv, Bool.not_true, Bool.false_eq_true, if_false, hrp,
          hrec, hpf]
        have hstop : (decide (env.freeBlocks ≤ cnt + 1) || (b == p.nextBlkaddr)) = false := by
          rw [Bool.or_eq_false_iff]
          exact ⟨by simp only [decide_eq_false_iff_not, Nat.not_le]; omega, hbne⟩
        rw [hstop]
        rw [if_neg (by simp)]
        rw [ih f p.nextBlkaddr (cnt + 1)
          (adjust_por_ra_blocks env ra b p.nextBlkaddr) m vs hchain (by omega) (by omega)]

/-- Claim C6: (first conjunct) at a fsync-marked block whose ino has no table
entry and no inode-page materialization applies, an -ENOENT from the add is
swallowed: the walk proceeds exactly as for a skipped block, with the table,
materialization count and visit trace unchanged, subject only to the ordinary
loop-detection check; (second conjunct) a chain consisting only of such blocks
yields a clean empty-table discovery; (third conjunct) the orchestrator on
such a chain (non-zoned device) returns 0, writes no checkpoint, and ends with
an empty table. -/
theorem claim_C6 (env : FsEnv) :
    (∀ (co : Bool) fuel b page hd cnt ra m vs,
       env.validPOR b = true → env.readPage b = .ok page → page.recoverable = true →
       page.fsyncMark = true → get_fsync_inode hd page.ino = none →
       (!co && page.isInode && page.dentMark) = false →
       env.igetRetry page.ino = .error (-ENOENT) →
       findLoop env co (fuel + 1) b hd cnt ra m vs =
         (if (decide (env.freeBlocks ≤ cnt + 1) || (b == page.nextBlkaddr)) = true then
            some { err := -EINVAL, list := hd, steps := 0, materialized := m, visits := vs }
          else
            (findLoop env co fuel page.nextBlkaddr hd (cnt + 1)
               (adjust_por_ra_blocks env ra b page.nextBlkaddr) m vs).map
              (fun r => { r with steps := r.steps + 1 }))) ∧
    (∀ n, notFoundChain env env.startBlkaddr n = true → n < env.freeBlocks →
      find_fsync_dnodes env false =
        some { err := 0, list := [], steps := n, materialized := 0, visits := [] }) ∧
    (∀ (oenv : OrchEnv) n, oenv.fs = env → oenv.blkzoned = false →
      notFoundChain env env.startBlkaddr n = true → n < env.freeBlocks →
      (f3fs_recover_fsync_data oenv false).ret = 0 ∧
      (f3fs_recover_fsync_data oenv false).cpWritten = false ∧
      (f3fs_recover_fsync_data oenv false).discList = []) := by
  refine ⟨?_, ?_, ?_⟩
  · intro co fuel b page hd cnt ra m vs hv hrp hrec hfm hfind hpre hig
    have hpf : processFsync env co b page hd m vs = .ok (hd, m, vs) :=
      processFsync_enoent_skip env co b page hd m vs hfm hfind hpre hig
    simp only [findLoop, hv, Bool.not_true, Bool.false_eq_true, if_false, hrp, hrec, hpf]
    split
    · rfl
    · cases findLoop env co fuel page.nextBlkaddr hd (cnt + 1)
          (adjust_por_ra_blocks env ra b page.nextBlkaddr) m vs with
      | none => rfl
      | some r => rfl
  · intro n hch hn
    exact notFoundChain_findLoop env n (env.freeBlocks + 1) env.startBlkaddr 0
      RECOVERY_MAX_RA_BLOCKS 0 [] hch (by omega) (by omega)
  · intro oenv n hfs hz hch hn
    subst hfs
    have hfind := notFoundChain_findLoop oenv.fs n (oenv.fs.freeBlocks + 1)
      oenv.fs.startBlkaddr 0 RECOVERY_MAX_RA_BLOCKS 0 [] hch (by omega) (by omega)
    unfold f3fs_recover_fsync_data find_fsync_dnodes
    rw [hfind]
    dsimp only
    rw [if_pos (by simp)]
    unfold orchSkip
    simp [hz]

/-- A data-only fsync dnode for ino 9 at block 100 (scenario 8), next 101. -/
def pageC6 : NodePage where
  ino := 9
  ofs := 0
  nextBlkaddr := 101
  isInode := false
  fsyncMark := true
  dentMark := false
  recoverable := true
  raw := rawZero
  dataAddrs := fun _ => 0

/-- Environment: ino 9 has no NAT entry; the chain is the single block 100. -/
def envC6 : FsEnv where
  validPOR := fun b => b == 100
  readPage := fun b => if b == 100 then .ok pageC6 else .error (-EINVAL)
  igetRetry := fun _ => .error (-ENOENT)
  dquotInit := fun _ => .ok ()
  dquotAllocInode := fun _ => .ok ()
  recoverInodePageRes := fun _ => .ok ()
  freeBlocks := 4
  blocksPerSeg := 8
  startBlkaddr := 100

/-- Orchestrator environment over envC6 (not zoned). -/
def envC6orch : OrchEnv where
  fs := envC6
  readonly := false
  blkzoned := false
  fixWpRes := 0
  writeCpRes := 0
  rdErr := 0
  rdInodeList := []

/-- Witness for claim C6 at a concrete input: the ino-9 dnode is skipped and
the walk continues; the one-block NotFound chain gives return 0, no
checkpoint, empty table. -/
theorem claim_C6_witness :
    (findLoop envC6 false 3 100 [] 0 RECOVERY_MAX_RA_BLOCKS 0 [] =
      (if (decide (envC6.freeBlocks ≤ 0 + 1) || ((100 : Nat) == pageC6.nextBlkaddr)) = true then
         some { err := -EINVAL, list := [], steps := 0, materialized := 0, visits := [] }
       else
         (findLoop envC6 false 2 pageC6.nextBlkaddr [] (0 + 1)
            (adjust_por_ra_blocks envC6 RECOVERY_MAX_RA_BLOCKS 100 pageC6.nextBlkaddr) 0 []).map
           (fun r => { r with steps := r.steps + 1 }))) ∧
    ((f3fs_recover_fsync_data envC6orch false).ret = 0 ∧
     (f3fs_recover_fsync_data envC6orch false).cpWritten = false ∧
     (f3fs_recover_fsync_data envC6orch false).discList = []) :=
  ⟨(claim_C6 envC6).1 false 2 100 pageC6 [] 0 RECOVERY_MAX_RA_BLOCKS 0 []
      rfl rfl rfl rfl rfl rfl rfl,
   (claim_C6 envC6).2.2 envC6orch 1 rfl rfl (by decide) (by decide)⟩

/-- Collaborators of the repair pass beyond FsEnv: quota transfer and project
quota transfer (per ino), and the outcomes of recover_dentry and
do_recover_data per block (modelled in full separately). -/
structure RdEnv where
  fs : FsEnv
  dquotTransfer : Nat → Except Int Unit
  transferProjectQuota : Nat → Except Int Unit
  sbHasProjectQuota : Bool
  dentryRes : Nat → Except Int Unit
  drdRes : Nat → Except Int Unit

/-- recover_quota_data (lines 248-273): build the attr set from uid/gid
mismatches; nothing to do when both match; otherwise run dquot_transfer, and
on failure set the QUOTA_NEED_REPAIR superblock flag (second component) and
return the error. -/
def recover_quota_data (env : RdEnv) (inode : Inode) (raw : RawInode) : Int × Bool :=
  if raw.uid == inode.uid && raw.gid == inode.gid then (0, false)
  else
    match env.dquotTransfer inode.ino with
    | .ok _ => (0, false)
    | .error e => (e, true)

/-- recover_inline_flags: refresh FI_PIN_FILE and FI_DATA_EXIST from the raw
inline bitmap. -/
def recover_inline_flags (inode : Inode) (raw : RawInode) : Inode :=
  { inode with pinFile := raw.inlinePin, dataExist := raw.inlineDataExist }

/-- recover_inode (lines 287-348): copy i_mode, run the quota step (a failure
propagates, with the repair flag as second component), then uid/gid, the
project-quota transfer when the extra-attr area carries a different project
id, then size, times, advise, flags, gc_failures and the inline flags. -/
def recover_inode (env : RdEnv) (inode : Inode) (raw : RawInode) :
    Except Int Inode × Bool :=
  match recover_quota_data env { inode with mode := raw.mode } raw with
  | (e, flag) =>
    if e != 0 then (.error e, flag)
    else
      match (if raw.inlineExtraAttr && env.sbHasProjectQuota && raw.fitsProjid then
               (if raw.projid != inode.projid then
                  match env.transferProjectQuota inode.ino with
                  | .error e2 => Except.error e2
                  | .ok _ => Except.ok raw.projid
                else Except.ok inode.projid)
             else Except.ok inode.projid : Except Int Nat) with
      | .error e2 => (.error e2, flag)
      | .ok pj =>
        (.ok (recover_inline_flags
          { inode with
              mode := raw.mode, uid := raw.uid, gid := raw.gid, projid := pj,
              size := raw.size, atime := raw.atime, ctime := raw.ctime,
              mtime := raw.mtime, atimeNsec := raw.atimeNsec,
              ctimeNsec := raw.ctimeNsec, mtimeNsec := raw.mtimeNsec,
              advise := raw.advise, flags := raw.flags,
              gcFailures := raw.gcFailures } raw), flag)

/-- Pointwise update of the in-memory inode map. -/
def updInode (f : Nat → Inode) (k : Nat) (v : Inode) : Nat → Inode :=
  fun i => if i == k then v else f i

/-- One recorded move decision of the repair pass: the block being processed,
the entry's blkaddr field at that moment, and whether the entry was moved to
the tmp list. -/
structure MoveDecision where
  blk : Nat
  entryBlk : Nat
  moved : Bool
  deriving DecidableEq, Repr

/-- Result of the repair-pass walk.  processed records every block whose page
was read and found recoverable. -/
structure RdOut where
  err : Int
  inodeList : List FsyncEntry
  tmpList : List FsyncEntry
  quotaRepair : Bool
  decisions : List MoveDecision
  processed : List Nat
  deriving DecidableEq, Repr

/-- The recover_data walk (lines 721-794), fuel-indexed like the source's
unbounded loop (the source runs it only after a discovery pass that bounded
the chain).  Per block: stop on a non-META_POR address, read the page
(propagating errors), stop on checkpoint-version mismatch, skip blocks whose
ino is not in the table; else recover the inode for inode pages (a failure
breaks the walk), run recover_dentry when this block is the entry's
last_dentry, run do_recover_data, record the move decision, and move the
entry to the tmp list exactly when entry.blkaddr equals this block; advance
along the footer link with the adjusted read-ahead window. -/
def recoverDataLoop (env : RdEnv) :
    Nat → Nat → List FsyncEntry → List FsyncEntry → (Nat → Inode) → Bool → Nat →
    List MoveDecision → List Nat → Option RdOut
  | 0, _, _, _, _, _, _, _, _ => none
  | fuel+1, blk, il, tl, inodes, qr, ra, ds, ps =>
    if !env.fs.validPOR blk then
      some { err := 0, inodeList := il, tmpList := tl, quotaRepair := qr,
             decisions := ds, processed := ps }
    else
      match env.fs.readPage blk with
      | .error e =>
        some { err := e, inodeList := il, tmpList := tl, quotaRepair := qr,
               decisions := ds, processed := ps }
      | .ok page =>
        if !page.recoverable then
          some { err := 0, inodeList := il, tmpList := tl, quotaRepair := qr,
                 decisions := ds, processed := ps }
        else
          match get_fsync_inode il page.ino with
          | none =>
            recoverDataLoop env fuel page.nextBlkaddr il tl inodes qr
              (adjust_por_ra_blocks env.fs ra blk page.nextBlkaddr) ds (ps ++ [blk])
          | some entry =>
            match (if page.isInode then
                     recover_inode env (inodes page.ino) page.raw
                   else (.ok (inodes page.ino), false) : Except Int Inode × Bool) with
            | (.error e, qf) =>
              some { err := e, inodeList := il, tmpList := tl, quotaRepair := qr || qf,
                     decisions := ds, processed := ps ++ [blk] }
            | (.ok i2, qf) =>
              match (if entry.lastDentry == blk then env.dentryRes blk
                     else .ok () : Except Int Unit) with
              | .error e =>
                some { err := e, inodeList := il, tmpList := tl,
                       quotaRepair := qr || qf, decisions := ds, processed := ps ++ [blk] }
              | .ok _ =>
                match env.drdRes blk with
                | .error e =>
                  some { err := e, inodeList := il, tmpList := tl,
                         quotaRepair := qr || qf, decisions := ds, processed := ps ++ [blk] }
                | .ok _ =>
                  recoverDataLoop env fuel page.nextBlkaddr
                    (if entry.blkaddr == blk then il.filter (fun x => x.ino != entry.ino)
                     else il)
                    (if entry.blkaddr == blk then tl ++ [entry] else tl)
                    (updInode inodes page.ino i2) (qr || qf)
                    (adjust_por_ra_blocks env.fs ra blk page.nextBlkaddr)
                    (ds ++ [{ blk := blk, entryBlk := entry.blkaddr,
                              moved := entry.blkaddr == blk }])
                    (ps ++ [blk])

/-- Claim C4 (amended): a dquot_transfer failure during inode reconstruction
sets the QUOTA_NEED_REPAIR superblock flag, but it is propagated, not
swallowed: recover_quota_data returns the error, recover_inode propagates it,
and the repair pass breaks at that block with the error, so recovery aborts
rather than continuing. -/
theorem claim_C4 (env : RdEnv) (inode : Inode) (raw : RawInode) (e : Int)
    (hdiff : raw.uid ≠ inode.uid ∨ raw.gid ≠ inode.gid)
    (htr : env.dquotTransfer inode.ino = .error e) (hne : e ≠ 0) :
    recover_quota_data env inode raw = (e, true) ∧
    recover_inode env inode raw = (.error e, true) ∧
    (∀ fuel blk il tl inodes qr ra ds ps entry page,
      env.fs.validPOR blk = true → env.fs.readPage blk = .ok page →
      page.recoverable = true → page.isInode = true → page.raw = raw →
      get_fsync_inode il page.ino = some entry → inodes page.ino = inode →
      recoverDataLoop env (fuel + 1) blk il tl inodes qr ra ds ps =
        some { err := e, inodeList := il, tmpList := tl, quotaRepair := true,
               decisions := ds, processed := ps ++ [blk] }) := by
  have hc : (raw.uid == inode.uid && raw.gid == inode.gid) = false := by
    cases hu : raw.uid == inode.uid <;> cases hg : raw.gid == inode.gid <;> simp_all
  have h1 : recover_quota_data env inode raw = (e, true) := by
    simp [recover_quota_data, hc, htr]
  have h2 : recover_inode env inode raw = (.error e, true) := by
    unfold recover_inode
    have hc2 : recover_quota_data env { inode with mode := raw.mode } raw = (e, true) := by
      simp [recover_quota_data, hc, htr]
    rw [hc2]
    simp [hne]
  refine ⟨h1, h2, ?_⟩
  intro fuel blk il tl inodes qr ra ds ps entry page hv hrp hrec hii hraw hfind hino
  simp only [recoverDataLoop, hv, Bool.not_true, Bool.false_eq_true, if_false, hrp,
    hrec, hfind, hii, if_true, hraw, hino, h2]
  simp

/-- Fsync-marked inode page for ino 7 at 100 carrying uid 1000. -/
def pageC4a : NodePage where
  ino := 7
  ofs := 0
  nextBlkaddr := 101
  isInode := true
  fsyncMark := true
  dentMark := false
  recoverable := true
  raw := { rawZero with uid := 1000 }
  dataAddrs := fun _ => 0

/-- Fsync-marked dnode for ino 7 at 101. -/
def pageC4b : NodePage where
  ino := 7
  ofs := 1
  nextBlkaddr := 102
  isInode := false
  fsyncMark := true
  dentMark := false
  recoverable := true
  raw := rawZero
  dataAddrs := fun _ => 0

/-- Discovery environment: chain 100 -> 101, both fsync-marked for ino 7. -/
def envC4fs : FsEnv where
  validPOR := fun b => b == 100 || b == 101
  readPage := fun b =>
    if b == 100 then .ok pageC4a
    else if b == 101 then .ok pageC4b
    else .error (-EINVAL)
  igetRetry := fun _ => .ok ()
  dquotInit := fun _ => .ok ()
  dquotAllocInode := fun _ => .ok ()
  recoverInodePageRes := fun _ => .ok ()
  freeBlocks := 8
  blocksPerSeg := 8
  startBlkaddr := 100

/-- Default in-memory inodes: every field zero (so uid 0 differs from the
recovered raw uid 1000). -/
def inodesDefault : Nat → Inode := fun i =>
  { ino := i, mode := 0, uid := 0, gid := 0, size := 0, atime := 0, ctime := 0,
    mtime := 0, atimeNsec := 0, ctimeNsec := 0, mtimeNsec := 0, advise := 0,
    flags := 0, gcFailures := 0, projid := 0, pinFile := false, dataExist := false }

/-- Repair environment in which dquot_transfer fails with -EDQUOT. -/
def envC4 : RdEnv where
  fs := envC4fs
  dquotTransfer := fun _ => .error (-EDQUOT)
  transferProjectQuota := fun _ => .ok ()
  sbHasProjectQuota := false
  dentryRes := fun _ => .ok ()
  drdRes := fun _ => .ok ()

/-- Counterexample to claim C4 as stated.  The claim says a dquot_transfer
failure is non-fatal and recovery continues.  On this concrete image
(discovery found ino 7 over blocks 100 and 101), the repair pass at block 100
sets the repair flag but returns -EDQUOT and stops: block 101 — valid,
recoverable and belonging to the same inode — is never processed
(processed = [100] only), because recover_quota_data returns the error
(line 272) and recover_inode and recover_data propagate it (lines 295-297 and
760-764). -/
theorem claim_C4_counterexample :
    (find_fsync_dnodes envC4fs false).map (fun d => (d.err, d.list)) =
      some (0, [{ ino := 7, blkaddr := 101, lastDentry := 0 }]) ∧
    recoverDataLoop envC4 8 100 [{ ino := 7, blkaddr := 101, lastDentry := 0 }] []
        inodesDefault false RECOVERY_MAX_RA_BLOCKS [] [] =
      some { err := -EDQUOT, inodeList := [{ ino := 7, blkaddr := 101, lastDentry := 0 }],
             tmpList := [], quotaRepair := true, decisions := [], processed := [100] } ∧
    envC4fs.validPOR 101 = true := by decide

/-- Witness for claim C4 (amended) at a concrete input: uid differs, the
transfer fails with -EDQUOT, the flag is set, the error propagates and the
walk breaks at block 100. -/
theorem claim_C4_witness :
    recover_quota_data envC4 (inodesDefault 7) pageC4a.raw = (-EDQUOT, true) ∧
    recover_inode envC4 (inodesDefault 7) pageC4a.raw = (.error (-EDQUOT), true) ∧
    (∀ fuel blk il tl inodes qr ra ds ps entry page,
      envC4.fs.validPOR blk = true → envC4.fs.readPage blk = .ok page →
      page.recoverable = true → page.isInode = true → page.raw = pageC4a.raw →
      get_fsync_inode il page.ino = some entry → inodes page.ino = inodesDefault 7 →
      recoverDataLoop envC4 (fuel + 1) blk il tl inodes qr ra ds ps =
        some { err := -EDQUOT, inodeList := il, tmpList := tl, quotaRepair := true,
               decisions := ds, processed := ps ++ [blk] }) :=
  claim_C4 envC4 (inodesDefault 7) pageC4a.raw (-EDQUOT) (by decide) rfl (by decide)

/-- The last block at which discovery recorded the entry blkaddr for an ino. -/
def lastVisitBlk (vs : List (Nat × Nat)) (ino : Nat) : Option Nat :=
  ((vs.filter (fun v => v.2 == ino)).map Prod.fst).getLast?

theorem lastVisitBlk_append_same (vs : List (Nat × Nat)) (blk ino : Nat) :
    lastVisitBlk (vs ++ [(blk, ino)]) ino = some blk := by
  unfold lastVisitBlk
  rw [List.filter_append, List.map_append]
  simp

theorem lastVisitBlk_append_other (vs : List (Nat × Nat)) (blk ino i : Nat)
    (h : i ≠ ino) : lastVisitBlk (vs ++ [(blk, ino)]) i = lastVisitBlk vs i := by
  unfold lastVisitBlk
  rw [List.filter_append]
  have hf : List.filter (fun v => v.2 == i) [(blk, ino)] = [] := by
    simp [Ne.symm h]
  rw [hf, List.append_nil]

/-- Invariant tying the fsync-inode table to the visit trace: every entry's
blkaddr is the last block at which discovery recorded that ino. -/
def VisitInv (hd : List FsyncEntry) (vs : List (Nat × Nat)) : Prop :=
  ∀ e ∈ hd, lastVisitBlk vs e.ino = some e.blkaddr

theorem markEntry_visitInv (hd : List FsyncEntry) (vs : List (Nat × Nat))
    (ino blk : Nat) (dent : Bool)
    (hinv : ∀ e ∈ hd, e.ino ≠ ino → lastVisitBlk vs e.ino = some e.blkaddr) :
    VisitInv (markEntry hd ino blk dent) (vs ++ [(blk, ino)]) := by
  intro e2 he2
  unfold markEntry at he2
  obtain ⟨e, he, heq⟩ := List.mem_map.mp he2
  by_cases h : (e.ino == ino) = true
  · rw [if_pos h] at heq
    have hi : e.ino = ino := by simpa using h
    subst heq
    show lastVisitBlk (vs ++ [(blk, ino)]) e.ino = some blk
    rw [hi]
    exact lastVisitBlk_append_same vs blk ino
  · rw [if_neg h] at heq
    subst heq
    have hne : e.ino ≠ ino := by simpa using h
    show lastVisitBlk (vs ++ [(blk, ino)]) e.ino = some e.blkaddr
    rw [lastVisitBlk_append_other vs blk ino e.ino hne]
    exact hinv e he hne

theorem add_fsync_inode_shape (env : FsEnv) (head : List FsyncEntry) (ino : Nat)
    (qi : Bool) (en : FsyncEntry)
    (h : (add_fsync_inode env head ino qi).res = .ok en) :
    (add_fsync_inode env head ino qi).list = head ++ [en] ∧ en.ino = ino := by
  unfold add_fsync_inode at h ⊢
  cases h1 : env.igetRetry ino with
  | error e => simp [h1] at h
  | ok u =>
    cases h2 : env.dquotInit ino with
    | error e => simp [h1, h2] at h
    | ok v =>
      cases qi with
      | false =>
        simp [h1, h2] at h ⊢
        simp [← h]
      | true =>
        cases h3 : env.dquotAllocInode ino with
        | error e => simp [h1, h2, h3] at h
        | ok w =>
          simp [h1, h2, h3] at h ⊢
          simp [← h]

theorem processFsync_visitInv (env : FsEnv) (co : Bool) (b : Nat) (page : NodePage)
    (hd : List FsyncEntry) (m : Nat) (vs : List (Nat × Nat))
    (hd2 : List FsyncEntry) (m2 : Nat) (vs2 : List (Nat × Nat))
    (h : processFsync env co b page hd m vs = .ok (hd2, m2, vs2))
    (hinv : VisitInv hd vs) : VisitInv hd2 vs2 := by
  unfold processFsync at h
  by_cases hf : page.fsyncMark
  · simp only [hf, Bool.not_true, Bool.false_eq_true, if_false] at h
    cases hg : get_fsync_inode hd page.ino with
    | some en =>
      rw [hg] at h
      simp only [Except.ok.injEq, Prod.mk.injEq] at h
      obtain ⟨hh, hm, hv⟩ := h
      subst hh
      subst hv
      exact markEntry_visitInv hd vs page.ino b (page.isInode && page.dentMark)
        (fun e he _ => hinv e he)
    | none =>
      rw [hg] at h
      by_cases hpre : (!co && page.isInode && page.dentMark) = true
      · cases hri : env.recoverInodePageRes b with
        | error e2 => simp [hpre, hri] at h
        | ok u =>
          simp only [hpre, hri, if_true] at h
          cases ha : (add_fsync_inode env hd page.ino true).res with
          | error e2 =>
            rw [ha] at h
            by_cases he2 : (e2 == -ENOENT) = true
            · simp only [he2, if_true, Except.ok.injEq, Prod.mk.injEq] at h
              obtain ⟨hh, hm, hv⟩ := h
              subst hh
              subst hv
              exact hinv
            · simp [he2] at h
          | ok en =>
            rw [ha] at h
            obtain ⟨hl, hi⟩ := add_fsync_inode_shape env hd page.ino true en ha
            rw [hl] at h
            simp only [Except.ok.injEq, Prod.mk.injEq] at h
            obtain ⟨hh, hm, hv⟩ := h
            subst hh
            subst hv
            refine markEntry_visitInv (hd ++ [en]) vs page.ino b
              (page.isInode && page.dentMark) ?_
            intro e he hne
            rcases List.mem_append.mp he with he | he
            · exact hinv e he
            · simp only [List.mem_singleton] at he
              subst he
              exact absurd hi hne
      · have hpre2 := Bool.eq_false_iff.mpr hpre
        simp only [hpre2, Bool.false_eq_true, if_false] at h
        cases ha : (add_fsync_inode env hd page.ino false).res with
        | error e2 =>
          rw [ha] at h
          by_cases he2 : (e2 == -ENOENT) = true
          · simp only [he2, if_true, Except.ok.injEq, Prod.mk.injEq] at h
            obtain ⟨hh, hm, hv⟩ := h
            subst hh
            subst hv
            exact hinv
          · simp [he2] at h
        | ok en =>
          rw [ha] at h
          obtain ⟨hl, hi⟩ := add_fsync_inode_shape env hd page.ino false en ha
          rw [hl] at h
          simp only [Except.ok.injEq, Prod.mk.injEq] at h
          obtain ⟨hh, hm, hv⟩ := h
          subst hh
          subst hv
          refine markEntry_visitInv (hd ++ [en]) vs page.ino b
            (page.isInode && page.dentMark) ?_
          intro e he hne
          rcases List.mem_append.mp he with he | he
          · exact hinv e he
          · simp only [List.mem_singleton] at he
            subst he
            exact absurd hi hne
  · have hf2 := Bool.eq_false_iff.mpr hf
    simp only [hf2, Bool.not_false, if_true, Except.ok.injEq, Prod.mk.injEq] at h
    obtain ⟨hh, hm, hv⟩ := h
    subst hh
    subst hv
    exact hinv

theorem findLoop_visitInv (env : FsEnv) (co : Bool) :
    ∀ fuel b hd cnt ra m vs r, findLoop env co fuel b hd cnt ra m vs = some r →
      VisitInv hd vs → VisitInv r.list r.visits := by
  intro fuel
  induction fuel with
  | zero => intro b hd cnt ra m vs r h; simp [findLoop] at h
  | succ f ih =>
    intro b hd cnt ra m vs r h hinv
    simp only [findLoop] at h
    by_cases hv : env.validPOR b
    · simp only [hv, Bool.not_true, Bool.false_eq_true, if_false] at h
      cases hrp : env.readPage b with
      | error e =>
        rw [hrp] at h
        simp only [Option.some.injEq] at h
        subst h
        exact hinv
      | ok page =>
        rw [hrp] at h
        by_cases hrec : page.recoverable
        · simp only [hrec, Bool.not_true, Bool.false_eq_true, if_false] at h
          cases hpf : processFsync env co b page hd m vs with
          | error e =>
            rw [hpf] at h
            simp only [Option.some.injEq] at h
            subst h
            exact hinv
          | ok t =>
            obtain ⟨hd2, m2, vs2⟩ := t
            have hinv2 : VisitInv hd2 vs2 :=
              processFsync_visitInv env co b page hd m vs hd2 m2 vs2 hpf hinv
            rw [hpf] at h
            dsimp only at h
            by_cases hstop :
                (decide (env.freeBlocks ≤ cnt + 1) || (b == page.nextBlkaddr)) = true
            · rw [if_pos hstop] at h
              simp only [Option.some.injEq] at h
              subst h
              exact hinv2
            · rw [if_neg hstop] at h
              cases hnl : findLoop env co f page.nextBlkaddr hd2 (cnt + 1)
                  (adjust_por_ra_blocks env ra b page.nextBlkaddr) m2 vs2 with
              | none => rw [hnl] at h; simp at h
              | some r2 =>
                have hr2 := ih page.nextBlkaddr hd2 (cnt + 1)
                  (adjust_por_ra_blocks env ra b page.nextBlkaddr) m2 vs2 r2 hnl hinv2
                rw [hnl] at h
                simp only [Option.some.injEq] at h
                subst h
                exact hr2
        · simp only [Bool.not_eq_true] at hrec
          simp only [hrec, Bool.not_false, if_true, Option.some.injEq] at h
          subst h
          exact hinv
    · simp only [hv] at h
      simp only [Bool.not_false, if_true, Option.some.injEq] at h
      subst h
      exact hinv

theorem recoverDataLoop_decisions (env : RdEnv) :
    ∀ fuel blk il tl inodes qr ra ds ps r,
      recoverDataLoop env fuel blk il tl inodes qr ra ds ps = some r →
      (∀ d ∈ ds, d.moved = (d.entryBlk == d.blk)) →
      ∀ d ∈ r.decisions, d.moved = (d.entryBlk == d.blk) := by
  intro fuel
  induction fuel with
  | zero => intro blk il tl inodes qr ra ds ps r h hds; simp [recoverDataLoop] at h
  | succ f ih =>
    intro blk il tl inodes qr ra ds ps r h hds
    simp only [recoverDataLoop] at h
    by_cases hv : env.fs.validPOR blk
    · simp only [hv, Bool.not_true, Bool.false_eq_true, if_false] at h
      cases hrp : env.fs.readPage blk with
      | error e =>
        rw [hrp] at h
        simp only [Option.some.injEq] at h
        subst h
        exact hds
      | ok page =>
        rw [hrp] at h
        by_cases hrec : page.recoverable
        · simp only [hrec, Bool.not_true, Bool.false_eq_true, if_false] at h
          cases hfind : get_fsync_inode il page.ino with
          | none =>
            rw [hfind] at h
            exact ih _ _ _ _ _ _ _ _ _ h hds
          | some entry =>
            rw [hfind] at h
            dsimp only at h
            cases hri : (if page.isInode then recover_inode env (inodes page.ino) page.raw
                         else (.ok (inodes page.ino), false) :
                         Except Int Inode × Bool) with
            | mk res qf =>
              cases res with
              | error e =>
                rw [hri] at h
                dsimp only at h
                simp only [Option.some.injEq] at h
                subst h
                exact hds
              | ok i2 =>
                rw [hri] at h
                dsimp only at h
                cases hde : (if entry.lastDentry == blk then env.dentryRes blk
                             else .ok () : Except Int Unit) with
                | error e =>
                  rw [hde] at h
                  simp only [Option.some.injEq] at h
                  subst h
                  exact hds
                | ok u =>
                  rw [hde] at h
                  cases hdr : env.drdRes blk with
                  | error e =>
                    rw [hdr] at h
                    simp only [Option.some.injEq] at h
                    subst h
                    exact hds
                  | ok u2 =>
                    rw [hdr] at h
                    refine ih _ _ _ _ _ _ _ _ _ h ?_
                    intro d hd
                    rcases List.mem_append.mp hd with hd | hd
                    · exact hds d hd
                    · simp only [List.mem_singleton] at hd
                      subst hd
                      rfl
        · simp only [Bool.not_eq_true] at hrec
          simp only [hrec, Bool.not_false, if_true, Option.some.injEq] at h
          subst h
          exact hds
    · simp only [hv] at h
      simp only [Bool.not_false, if_true, Option.some.injEq] at h
      subst h
      exact hds

/-- Claim C5 (amended): during the data-repair pass an entry is moved from the
inode list to the tmp list exactly when the block being processed equals the
entry's blkaddr field (second conjunct), and discovery sets that field to the
LAST fsync-marked node block seen for the inode — it is overwritten at every
visit — not the first (first conjunct). -/
theorem claim_C5 (env : FsEnv) (co : Bool) (rdenv : RdEnv) :
    (∀ r, find_fsync_dnodes env co = some r →
      ∀ e ∈ r.list, lastVisitBlk r.visits e.ino = some e.blkaddr) ∧
    (∀ fuel blk il tl inodes qr ra ps r,
      recoverDataLoop rdenv fuel blk il tl inodes qr ra [] ps = some r →
      ∀ d ∈ r.decisions, d.moved = (d.entryBlk == d.blk)) := by
  constructor
  · intro r h
    refine findLoop_visitInv env co (env.freeBlocks + 1) env.startBlkaddr [] 0
      RECOVERY_MAX_RA_BLOCKS 0 [] r h ?_
    intro e he
    simp at he
  · intro fuel blk il tl inodes qr ra ps r h
    refine recoverDataLoop_decisions rdenv fuel blk il tl inodes qr ra [] ps r h ?_
    intro d hd
    simp at hd

/-- Fsync-marked dnode for ino 7 at 100 (the FIRST node block of ino 7). -/
def pageC5a : NodePage where
  ino := 7
  ofs := 0
  nextBlkaddr := 101
  isInode := false
  fsyncMark := true
  dentMark := false
  recoverable := true
  raw := rawZero
  dataAddrs := fun _ => 0

/-- Fsync-marked dnode for ino 7 at 101 (the LAST node block of ino 7). -/
def pageC5b : NodePage where
  ino := 7
  ofs := 1
  nextBlkaddr := 102
  isInode := false
  fsyncMark := true
  dentMark := false
  recoverable := true
  raw := rawZero
  dataAddrs := fun _ => 0

/-- Discovery environment: chain 100 -> 101, both fsync-marked for ino 7. -/
def envC5fs : FsEnv where
  validPOR := fun b => b == 100 || b == 101
  readPage := fun b =>
    if b == 100 then .ok pageC5a
    else if b == 101 then .ok pageC5b
    else .error (-EINVAL)
  igetRetry := fun _ => .ok ()
  dquotInit := fun _ => .ok ()
  dquotAllocInode := fun _ => .ok ()
  recoverInodePageRes := fun _ => .ok ()
  freeBlocks := 8
  blocksPerSeg := 8
  startBlkaddr := 100

/-- Repair environment over envC5fs with all collaborators succeeding. -/
def envC5 : RdEnv where
  fs := envC5fs
  dquotTransfer := fun _ => .ok ()
  transferProjectQuota := fun _ => .ok ()
  sbHasProjectQuota := false
  dentryRes := fun _ => .ok ()
  drdRes := fun _ => .ok ()

/-- Counterexample to claim C5 as stated.  The first node block recorded for
ino 7 during discovery is 100 (first visit), but the repair pass does NOT move
the entry at block 100 (decision: moved = false) and DOES move it at 101: the
comparison at recovery.c line 779 is against entry->blkaddr, which line 429
overwrote at every fsync node, so it holds the last node block (101), not the
first. -/
theorem claim_C5_counterexample :
    (find_fsync_dnodes envC5fs false).map (fun d => (d.list, d.visits)) =
      some ([{ ino := 7, blkaddr := 101, lastDentry := 0 }], [(100, 7), (101, 7)]) ∧
    (recoverDataLoop envC5 8 100 [{ ino := 7, blkaddr := 101, lastDentry := 0 }] []
        inodesDefault false RECOVERY_MAX_RA_BLOCKS [] []).map
        (fun r => (r.decisions, r.inodeList, r.tmpList)) =
      some ([{ blk := 100, entryBlk := 101, moved := false },
             { blk := 101, entryBlk := 101, moved := true }],
            [], [{ ino := 7, blkaddr := 101, lastDentry := 0 }]) := by decide

/-- The discovery outcome on envC5fs. -/
def discC5 : DiscOut where
  err := 0
  list := [{ ino := 7, blkaddr := 101, lastDentry := 0 }]
  steps := 2
  materialized := 0
  visits := [(100, 7), (101, 7)]

/-- The repair-pass outcome on envC5. -/
def rdOutC5 : RdOut where
  err := 0
  inodeList := []
  tmpList := [{ ino := 7, blkaddr := 101, lastDentry := 0 }]
  quotaRepair := false
  decisions := [{ blk := 100, entryBlk := 101, moved := false },
                { blk := 101, entryBlk := 101, moved := true }]
  processed := [100, 101]

/-- Witness for claim C5 (amended) at a concrete input: the entry's blkaddr is
the last visit (101), and the recorded move decisions each satisfy
moved = (entryBlk == blk). -/
theorem claim_C5_witness :
    lastVisitBlk discC5.visits 7 = some 101 ∧
    ({ blk := 100, entryBlk := 101, moved := false } : MoveDecision).moved =
      ((101 : Nat) == 100) :=
  ⟨(claim_C5 envC5fs false envC5).1 discC5 (by decide)
      { ino := 7, blkaddr := 101, lastDentry := 0 } (by decide),
   (claim_C5 envC5fs false envC5).2 8 100
      [{ ino := 7, blkaddr := 101, lastDentry := 0 }] [] inodesDefault false
      RECOVERY_MAX_RA_BLOCKS [] rdOutC5 (by decide)
      { blk := 100, entryBlk := 101, moved := false } (by decide)⟩

/-- Summary entry: reverse pointer {nid, ofs_in_node} for a data block. -/
structure Summary where
  nid : Nat
  ofsInNode : Nat
  deriving DecidableEq, Repr

/-- The fields of a node page the resolver reads: ofs_of_node, ino_of_node. -/
structure NodeMeta where
  ofs : Nat
  ino : Nat
  deriving DecidableEq, Repr

/-- The dnode locator the resolver starts from: the current inode's ino, the
locator's nid, the inode-page lock state, and the data addresses readable
through the held inode page resp. the current dnode page (by ofs_in_node). -/
structure DnodeOfData where
  ino : Nat
  nid : Nat
  inodePageLocked : Bool
  inodePageAddrs : Nat → Nat
  nodePageAddrs : Nat → Nat

/-- Where the resolver truncates one index: in the held inode page, in the
current dnode page, or in another node located by (inode, bidx) lookup. -/
inductive TruncLoc where
  | inodePage : Nat → TruncLoc
  | curDnode : Nat → TruncLoc
  | other : Nat → Nat → TruncLoc
  deriving DecidableEq, Repr

/-- Collaborators of check_index_in_prev_nodes: segment geometry, the segment
validity bitmap, the three data CURSEGs (segno with in-memory summaries), the
on-disk summary page, node pages by nid, the inode cache and quota init,
start_bidx_of_node and the LOOKUP_NODE dnode lookup returning the data address
at the located index. -/
structure CipnEnv where
  segnoOf : Nat → Nat
  blkoffOf : Nat → Nat
  validBit : Nat → Nat → Bool
  cursegList : List (Nat × (Nat → Summary))
  sumPage : Nat → Except Int (Nat → Summary)
  nodePage : Nat → Except Int NodeMeta
  igetRetry : Nat → Except Int Unit
  dquotInit : Nat → Except Int Unit
  startBidxOf : Nat → Nat → Nat
  lookupDnode : Nat → Nat → Except Int Nat

/-- Obtaining the previous summary for the block (lines 486-500): from the
first hot/warm/cold data CURSEG covering the segment, else from the segment's
summary page. -/
def cipnSum (env : CipnEnv) (blkaddr : Nat) : Except Int Summary :=
  match env.cursegList.find? (fun c => c.1 == env.segnoOf blkaddr) with
  | some c => .ok (c.2 (env.blkoffOf blkaddr))
  | none => (env.sumPage (env.segnoOf blkaddr)).map (fun f => f (env.blkoffOf blkaddr))

/-- Opening the inode owning the located node (lines 525-540): a foreign ino
is opened with retry and quota-initialized (releasing it again on quota
failure); the current inode is reused directly. -/
def cipnOpenInode (env : CipnEnv) (dn : DnodeOfData) (meta : NodeMeta) :
    Except Int Nat :=
  if meta.ino != dn.ino then
    match env.igetRetry meta.ino with
    | .error e => .error e
    | .ok _ =>
      match env.dquotInit meta.ino with
      | .error e => .error e
      | .ok _ => .ok meta.ino
  else .ok dn.ino

/-- The data address the resolver would read at a truncation location. -/
def locAddr (env : CipnEnv) (dn : DnodeOfData) : TruncLoc → Option Nat
  | .inodePage ofs => some (dn.inodePageAddrs ofs)
  | .curDnode ofs => some (dn.nodePageAddrs ofs)
  | .other ino2 bidx =>
    match env.lookupDnode ino2 bidx with
    | .ok a => some a
    | .error _ => none

/-- check_index_in_prev_nodes (lines 465-573).  Returns the error code and the
list of performed truncations (empty or a single location).  Mirrors the
source: validity-bitmap test, summary fetch, the two fast paths through the
held inode page / current dnode (truncate_out, guarded by the address
equality), and the slow path locating the previous node by nid, opening its
inode, and truncating the one located index iff its data address equals the
block; a failed LOOKUP_NODE lookup goes to out and returns 0.  The inode-page
lock juggling has no observable effect on these outputs and is not
represented. -/
def check_index_in_prev_nodes (env : CipnEnv) (blkaddr : Nat) (dn : DnodeOfData) :
    Int × List TruncLoc :=
  if !env.validBit (env.segnoOf blkaddr) (env.blkoffOf blkaddr) then (0, [])
  else
    match cipnSum env blkaddr with
    | .error e => (e, [])
    | .ok sum =>
      if dn.ino == sum.nid then
        if dn.inodePageAddrs sum.ofsInNode == blkaddr then
          (0, [.inodePage sum.ofsInNode])
        else (0, [])
      else if dn.nid == sum.nid then
        if dn.nodePageAddrs sum.ofsInNode == blkaddr then
          (0, [.curDnode sum.ofsInNode])
        else (0, [])
      else
        match env.nodePage sum.nid with
        | .error e => (e, [])
        | .ok meta =>
          match cipnOpenInode env dn meta with
          | .error e => (e, [])
          | .ok ino2 =>
            match env.lookupDnode ino2 (env.startBidxOf meta.ofs ino2 + sum.ofsInNode) with
            | .error _ => (0, [])
            | .ok a =>
              if a == blkaddr then
                (0, [.other ino2 (env.startBidxOf meta.ofs ino2 + sum.ofsInNode)])
              else (0, [])

/-- Claim C10: the collision resolver returns 0 and performs no mutation when
the block is not marked valid in the segment bitmap, when the LOOKUP_NODE
lookup for the computed index fails, or when the located data address (fast
paths included) differs from the block; and in every case the mutations it
performs are either none or the truncation of exactly one index whose current
data address equals the block. -/
theorem claim_C10 (env : CipnEnv) (blkaddr : Nat) (dn : DnodeOfData) :
    (env.validBit (env.segnoOf blkaddr) (env.blkoffOf blkaddr) = false →
      check_index_in_prev_nodes env blkaddr dn = (0, [])) ∧
    (∀ sum meta ino2 e,
      env.validBit (env.segnoOf blkaddr) (env.blkoffOf blkaddr) = true →
      cipnSum env blkaddr = .ok sum → dn.ino ≠ sum.nid → dn.nid ≠ sum.nid →
      env.nodePage sum.nid = .ok meta → cipnOpenInode env dn meta = .ok ino2 →
      env.lookupDnode ino2 (env.startBidxOf meta.ofs ino2 + sum.ofsInNode) = .error e →
      check_index_in_prev_nodes env blkaddr dn = (0, [])) ∧
    (∀ sum meta ino2 a,
      env.validBit (env.segnoOf blkaddr) (env.blkoffOf blkaddr) = true →
      cipnSum env blkaddr = .ok sum → dn.ino ≠ sum.nid → dn.nid ≠ sum.nid →
      env.nodePage sum.nid = .ok meta → cipnOpenInode env dn meta = .ok ino2 →
      env.lookupDnode ino2 (env.startBidxOf meta.ofs ino2 + sum.ofsInNode) = .ok a →
      a ≠ blkaddr →
      check_index_in_prev_nodes env blkaddr dn = (0, [])) ∧
    (∀ sum,
      env.validBit (env.segnoOf blkaddr) (env.blkoffOf blkaddr) = true →
      cipnSum env blkaddr = .ok sum → dn.ino = sum.nid →
      dn.inodePageAddrs sum.ofsInNode ≠ blkaddr →
      check_index_in_prev_nodes env blkaddr dn = (0, [])) ∧
    (∀ sum,
      env.validBit (env.segnoOf blkaddr) (env.blkoffOf blkaddr) = true →
      cipnSum env blkaddr = .ok sum → dn.ino ≠ sum.nid → dn.nid = sum.nid →
      dn.nodePageAddrs sum.ofsInNode ≠ blkaddr →
      check_index_in_prev_nodes env blkaddr dn = (0, [])) ∧
    ((check_index_in_prev_nodes env blkaddr dn).2 = [] ∨
      ∃ l, (check_index_in_prev_nodes env blkaddr dn).2 = [l] ∧
        locAddr env dn l = some blkaddr) := by
  refine ⟨?_, ?_, ?_, ?_, ?_, ?_⟩
  · intro hvb
    unfold check_index_in_prev_nodes
    rw [if_pos (by rw [hvb]; rfl)]
  · intro sum meta ino2 e hvb hsum hne1 hne2 hnp hoi hlk
    unfold check_index_in_prev_nodes
    rw [if_neg (by rw [hvb]; simp), hsum]
    dsimp only
    rw [if_neg (by simpa using hne1), if_neg (by simpa using hne2), hnp]
    dsimp only
    rw [hoi]
    dsimp only
    rw [hlk]
  · intro sum meta ino2 a hvb hsum hne1 hne2 hnp hoi hlk hna
    unfold check_index_in_prev_nodes
    rw [if_neg (by rw [hvb]; simp), hsum]
    dsimp only
    rw [if_neg (by simpa using hne1), if_neg (by simpa using hne2), hnp]
    dsimp only
    rw [hoi]
    dsimp only
    rw [hlk]
    dsimp only
    rw [if_neg (by simpa using hna)]
  · intro sum hvb hsum hip hne
    unfold check_index_in_prev_nodes
    rw [if_neg (by rw [hvb]; simp), hsum]
    dsimp only
    rw [if_pos (show (dn.ino == sum.nid) = true by simpa using hip)]
    rw [if_neg (by simpa using hne)]
  · intro sum hvb hsum hne1 hnid hne
    unfold check_index_in_prev_nodes
    rw [if_neg (by rw [hvb]; simp), hsum]
    dsimp only
    rw [if_neg (by simpa using hne1)]
    rw [if_pos (show (dn.nid == sum.nid) = true by simpa using hnid)]
    rw [if_neg (by simpa using hne)]
  · unfold check_index_in_prev_nodes
    split
    · exact Or.inl rfl
    · split
      · exact Or.inl rfl
      · split
        · split
          · rename_i haddr
            refine Or.inr ⟨_, rfl, ?_⟩
            simp only [locAddr, Option.some.injEq]
            simpa using haddr
          · exact Or.inl rfl
        · split
          · split
            · rename_i haddr
              refine Or.inr ⟨_, rfl, ?_⟩
              simp only [locAddr, Option.some.injEq]
              simpa using haddr
            · exact Or.inl rfl
          · split
            · exact Or.inl rfl
            · split
              · exact Or.inl rfl
              · split
                · exact Or.inl rfl
                · split
                  · rename_i a heq haddr
                    refine Or.inr ⟨_, rfl, ?_⟩
                    simp only [locAddr]
                    rw [heq]
                    simpa using haddr
                  · exact Or.inl rfl

/-- Collision-resolver environment: segment size 8; only segment 37 is marked
valid; its summary maps block 300 (offset 4) to nid 5, whose node page
belongs to foreign ino 9; the lookup at the computed index finds 300. -/
def envC10 : CipnEnv where
  segnoOf := fun b => b / 8
  blkoffOf := fun b => b % 8
  validBit := fun s _ => s == 37
  cursegList := []
  sumPage := fun s =>
    if s == 37 then .ok (fun o => { nid := 5, ofsInNode := o }) else .error (-EINVAL)
  nodePage := fun n => if n == 5 then .ok { ofs := 2, ino := 9 } else .error (-ENOENT)
  igetRetry := fun _ => .ok ()
  dquotInit := fun _ => .ok ()
  startBidxOf := fun _ _ => 100
  lookupDnode := fun i b => if i == 9 && b == 104 then .ok 300 else .error (-ENOENT)

/-- The locator the resolver starts from in the witness. -/
def dnC10 : DnodeOfData where
  ino := 7
  nid := 3
  inodePageLocked := true
  inodePageAddrs := fun _ => 0
  nodePageAddrs := fun _ => 0

/-- Witness for claim C10 at concrete inputs: block 200 sits in an invalid
segment, so the resolver returns 0 with no mutation; and on block 300 the
resolver's mutations are at most one truncation of an index whose current
address equals 300. -/
theorem claim_C10_witness :
    check_index_in_prev_nodes envC10 200 dnC10 = (0, []) ∧
    ((check_index_in_prev_nodes envC10 300 dnC10).2 = [] ∨
      ∃ l, (check_index_in_prev_nodes envC10 300 dnC10).2 = [l] ∧
        locAddr envC10 dnC10 l = some 300) :=
  ⟨(claim_C10 envC10 200 dnC10).1 (by decide),
   (claim_C10 envC10 300 dnC10).2.2.2.2.2⟩

/-- Collaborators of recover_dentry: the parent's encryption/casefold state,
casefolded-name setup, __f3fs_find_entry over the directory (the Option Nat is
the ino currently bound to the recovered name; errors model IS_ERR(page)),
the inode cache, quota init, orphan-slot acquisition and f3fs_add_dentry,
the last four indexed by the retry attempt. -/
structure DentEnv where
  encrypted : Bool
  casefolded : Bool
  initCasefold : Except Int Unit
  findEntry : Nat → Option Nat → Except Int (Option Nat)
  igetRetry : Nat → Except Int Unit
  dquotInit : Nat → Except Int Unit
  acquireOrphan : Nat → Except Int Unit
  addDentry : Nat → Except Int Unit

/-- init_recovered_filename (lines 121-165): reject over-long names; for an
encrypted casefolded parent the hash is stored after the name and must fit;
for a clear casefolded parent initialize the casefold buffer (fallible);
otherwise just hash. -/
def init_recovered_filename (env : DentEnv) (namelen : Nat) : Except Int Unit :=
  if F3FS_NAME_LEN < namelen then .error (-ENAMETOOLONG)
  else if env.encrypted && env.casefolded then
    if F3FS_NAME_LEN < namelen + 4 then .error (-EINVAL) else .ok ()
  else if env.casefolded then env.initCasefold
  else .ok ()

/-- The retry loop of recover_dentry (lines 196-233).  State is the directory
binding of the recovered name.  A found entry with the same ino succeeds; a
colliding entry's inode is opened (an -ENOENT from the open is converted to
-EEXIST before returning), quota-initialized, an orphan slot acquired, the
entry deleted and the lookup retried; a missing entry is added, retrying on
-ENOMEM, as is a page error from the lookup. -/
def recoverDentryLoop (env : DentEnv) (selfIno : Nat) :
    Nat → Option Nat → Nat → Option (Int × Option Nat)
  | 0, _, _ => none
  | fuel+1, st, attempt =>
    match env.findEntry attempt st with
    | .ok (some dIno) =>
      if dIno == selfIno then some (0, st)
      else
        match env.igetRetry dIno with
        | .error e => some ((if e == -ENOENT then -EEXIST else e), st)
        | .ok _ =>
          match env.dquotInit dIno with
          | .error e => some (e, st)
          | .ok _ =>
            match env.acquireOrphan attempt with
            | .error e => some (e, st)
            | .ok _ => recoverDentryLoop env selfIno fuel none (attempt + 1)
    | .ok none =>
      match env.addDentry attempt with
      | .error e =>
        if e == -ENOMEM then recoverDentryLoop env selfIno fuel st (attempt + 1)
        else some (e, st)
      | .ok _ => some (0, some selfIno)
    | .error e =>
      if e == -ENOMEM then recoverDentryLoop env selfIno fuel st (attempt + 1)
      else some (e, st)

/-- recover_dentry (lines 167-246): ensure the parent ino is in the dir table
(adding it as a non-quota entry), build the recovered filename, then run the
lookup/replace retry loop. -/
def recover_dentry (fsenv : FsEnv) (env : DentEnv) (dirList : List FsyncEntry)
    (pino selfIno namelen : Nat) (st : Option Nat) (fuel : Nat) :
    Option (Int × Option Nat × List FsyncEntry) :=
  match (match get_fsync_inode dirList pino with
         | some _ => Except.ok dirList
         | none =>
           match (add_fsync_inode fsenv dirList pino false).res,
                 (add_fsync_inode fsenv dirList pino false).list with
           | .error e, _ => Except.error e
           | .ok _, l2 => Except.ok l2 : Except Int (List FsyncEntry)) with
  | .error e => some (e, st, dirList)
  | .ok dl2 =>
    match init_recovered_filename env namelen with
    | .error e => some (e, st, dl2)
    | .ok _ =>
      (recoverDentryLoop env selfIno fuel st 0).map (fun r => (r.1, r.2, dl2))

/-- Claim C8: when the parent directory holds a colliding entry for the
recovered name and opening that entry's inode fails, recover_dentry's loop
returns the open error with -ENOENT converted to -EEXIST, so this path never
propagates -ENOENT to the caller. -/
theorem claim_C8 (env : DentEnv) (selfIno : Nat) (fuel attempt : Nat)
    (st : Option Nat) (dIno : Nat) (e : Int)
    (hfind : env.findEntry attempt st = .ok (some dIno)) (hne : dIno ≠ selfIno)
    (hig : env.igetRetry dIno = .error e) :
    recoverDentryLoop env selfIno (fuel + 1) st attempt =
      some ((if e == -ENOENT then -EEXIST else e), st) ∧
    (if e == -ENOENT then -EEXIST else e) ≠ -ENOENT := by
  constructor
  · simp only [recoverDentryLoop, hfind]
    rw [if_neg (by simpa using hne), hig]
  · by_cases he : (e == -ENOENT) = true
    · rw [if_pos he]
      decide
    · rw [if_neg he]
      simpa using he

/-- Directory-repair environment with a stale binding to ino 49 whose inode no
longer exists (f3fs_iget_retry yields -ENOENT). -/
def envC8 : DentEnv where
  encrypted := false
  casefolded := false
  initCasefold := .ok ()
  findEntry := fun _ st => .ok st
  igetRetry := fun i => if i == 49 then .error (-ENOENT) else .ok ()
  dquotInit := fun _ => .ok ()
  acquireOrphan := fun _ => .ok ()
  addDentry := fun _ => .ok ()

/-- Witness for claim C8 at a concrete input: recovering name -> ino 50 over a
stale binding to ino 49 returns -EEXIST (converted from -ENOENT), never
-ENOENT. -/
theorem claim_C8_witness :
    recoverDentryLoop envC8 50 2 (some 49) 0 =
      some ((if (-ENOENT : Int) == -ENOENT then -EEXIST else -ENOENT), some 49) ∧
    (if (-ENOENT : Int) == -ENOENT then -EEXIST else (-ENOENT : Int)) ≠ -ENOENT :=
  claim_C8 envC8 50 1 0 (some 49) 49 (-ENOENT) rfl (by decide) rfl

/-- Step 3 of do_recover_data (lines 603-711): acquire the dnode locator for
the page's start index with ALLOC_NODE (retrying -ENOMEM), fetch node info,
f3fs_bug_on a summary/node ino mismatch (recorded in bug, execution continues
as in non-checked builds), abort with -EFSCORRUPTED on an ofs_of_node
mismatch, then run the per-offset index loop over the page's address slots. -/
def drdSteps3 (env : DrdEnv) (page : NodePage) (addrs : Nat → Nat) (isize : Nat) :
    IdxLoopOut :=
  match retryENOMEM env.getDnode 0 env.getDnodeFuel with
  | .error e => { err := e, addrs := addrs, isize := isize, ops := [], bug := false }
  | .ok dninfo =>
    match env.nodeInfo dninfo.nid with
    | .error e => { err := e, addrs := addrs, isize := isize, ops := [], bug := false }
    | .ok ni =>
      if dninfo.pageOfs != page.ofs then
        { err := -EFSCORRUPTED, addrs := addrs, isize := isize, ops := [],
          bug := ni.ino != page.ino }
      else
        let r := recoverIdxLoop env ni.version page.dataAddrs
          (env.startBidxOf page.ofs) env.addrsPerPage addrs isize
        { r with bug := (ni.ino != page.ino) || r.bug }

/-- Step 2 of do_recover_data (lines 595-601): inline-data recovery returns 1
when the inline data was handled (nothing more to do), 0 to continue, or an
error. -/
def drdSteps2 (env : DrdEnv) (page : NodePage) (addrs : Nat → Nat) (isize : Nat) :
    IdxLoopOut :=
  if env.inlineDataRes == 1 then
    { err := 0, addrs := addrs, isize := isize, ops := [], bug := false }
  else if env.inlineDataRes != 0 then
    { err := env.inlineDataRes, addrs := addrs, isize := isize, ops := [], bug := false }
  else drdSteps3 env page addrs isize

/-- do_recover_data (lines 575-719): step 1 recovers the inline xattr of an
inode page, or the dedicated xattr block (which has no data indices and
returns), then steps 2 and 3. -/
def do_recover_data (env : DrdEnv) (page : NodePage) (addrs : Nat → Nat)
    (isize : Nat) : IdxLoopOut :=
  if page.isInode then
    match env.inlineXattrRes with
    | .error e => { err := e, addrs := addrs, isize := isize, ops := [], bug := false }
    | .ok _ => drdSteps2 env page addrs isize
  else if env.hasXattrBlock page.ofs then
    match env.xattrDataRes with
    | .error e => { err := e, addrs := addrs, isize := isize, ops := [], bug := false }
    | .ok _ => { err := 0, addrs := addrs, isize := isize, ops := [], bug := false }
  else drdSteps2 env page addrs isize
